import Mathlib

/-!
# Benchmark harness of sparkey (bench_mdb.c, bench_mdbi.c, benchi.c)

A shallow embedding of the three benchmark drivers and of the helpers they
share (artifact removal and sizing, clock arithmetic, the populate and
random-access loops), followed by the properties established about them.

Conventions of the embedding

* C `int` values are mathematical integers.  The places where a machine width
  matters reduce explicitly: the `size_t` sums modulo `2 ^ 64`, and the fields
  of `struct timeval` (`time_t` and `suseconds_t`, signed 64-bit on LP64) into
  the signed 64-bit range.
* A byte string (`char` buffer contents up to the terminating NUL, or an
  `MDB_val`) is a list of byte values.
* `exit(code)` is the outcome `exited code`; a function that comes back to its
  caller has the outcome `returned`.
* The storage engine (LMDB) is an external collaborator: it is a parameter of
  the embedding, a transition function from the call made to the return code,
  the data left in the out-parameter and the next engine state.
* The file system is a tree of regular files, directories and entries of other
  types, from the root directory of the process, which is also its working
  directory; the system calls `stat`, `opendir`/`readdir` and `remove` act on
  it, and resolve the components `.` and `..` of a path name as they go.
-/

namespace Sparkey

/-! ## Clock arithmetic (benchi.c and bench_mdbi.c, lines 108-132) -/

/-- The two fields of `struct timeval` the harness uses. -/
structure Timeval where
  tv_sec : Int
  tv_usec : Int
  deriving DecidableEq

/-- The value a signed 64-bit field holds after a computation whose exact result
is `x`: the result reduced into the range of the field (two's complement). -/
def wrapLong (x : Int) : Int :=
  (x + 9223372036854775808) % 18446744073709551616 - 9223372036854775808

/-- The function `timesub(tv1, tv2)` of benchi.c and bench_mdbi.c
(`/* tv1 = tv2 - tv1 */`), called on two distinct objects: the values of `*tv1`
and of `*tv2` when it returns.  Every result is stored in a signed 64-bit
field.

    tv1->tv_usec = tv2->tv_usec - tv1->tv_usec;
    if (tv1->tv_usec < 0) { tv1->tv_usec += 1000000; tv1->tv_sec++; }
    tv1->tv_sec = tv2->tv_sec - tv1->tv_sec;
-/
def timesub (tv1 tv2 : Timeval) : Timeval × Timeval :=
  let usec0 := wrapLong (tv2.tv_usec - tv1.tv_usec)
  let usec1 := if usec0 < 0 then wrapLong (usec0 + 1000000) else usec0
  let sec1 := if usec0 < 0 then wrapLong (tv1.tv_sec + 1) else tv1.tv_sec
  ({ tv_sec := wrapLong (tv2.tv_sec - sec1), tv_usec := usec1 }, tv2)

/-- The exact results of the computations `timesub(tv1, tv2)` makes, in the
order of the evaluation: the difference of the microseconds, that difference
plus 1000000 and the incremented seconds when the borrow is taken, and the
difference of the seconds.  When all of them fit the fields no computation
overflows. -/
def timesub_values (tv1 tv2 : Timeval) : List Int :=
  let usec0 := tv2.tv_usec - tv1.tv_usec
  if usec0 < 0 then
    [usec0, usec0 + 1000000, tv1.tv_sec + 1, tv2.tv_sec - (tv1.tv_sec + 1)]
  else
    [usec0, tv2.tv_sec - tv1.tv_sec]

/-- The exact value of the expression `t.tv_sec + 1e-6 * t.tv_usec`, counted in
microseconds (the C expression is this number divided by one million). -/
def micros (t : Timeval) : Int := t.tv_sec * 1000000 + t.tv_usec

/-- The range of a signed 64-bit field (`time_t` and `suseconds_t` on LP64). -/
def fitsLong (x : Int) : Prop := -9223372036854775808 ≤ x ∧ x < 9223372036854775808

/-- The denominator `f` of the insert throughput in `test()`, in exact
microseconds, from the three populate-phase deltas that the preceding
`timesub` calls left in `t1_wall`, `t1_cpu[0]` (user) and `t1_cpu[1]` (system)
(benchi.c lines 246-252, bench_mdbi.c lines 280-286):

    if (!t1_cpu[0].tv_sec && !t1_cpu[0].tv_usec) {
      f = t1_wall.tv_sec + 1e-6 * t1_wall.tv_usec;
    } else {
      f =  t1_cpu[0].tv_sec + 1e-6 * t1_cpu[0].tv_usec;
      f += t1_cpu[1].tv_sec + 1e-6 * t1_cpu[1].tv_usec;
    }
-/
def puts_denominator (t1_wall t1_ucpu t1_scpu : Timeval) : Int :=
  if t1_ucpu.tv_sec = 0 ∧ t1_ucpu.tv_usec = 0 then
    micros t1_wall
  else
    micros t1_ucpu + micros t1_scpu

/-- The denominator `f` of the lookup throughput in `test()`, in exact
microseconds, from the lookup-phase deltas left in `t2_wall`, `t2_cpu[0]` and
`t2_cpu[1]` (benchi.c lines 266-268, bench_mdbi.c lines 300-302).  The wall
delta is passed for symmetry with `puts_denominator`; the code does not read it.

    f =  t2_cpu[0].tv_sec + 1e-6 * t2_cpu[0].tv_usec;
    f += t2_cpu[1].tv_sec + 1e-6 * t2_cpu[1].tv_usec;
-/
def lookups_denominator (_t2_wall t2_ucpu t2_scpu : Timeval) : Int :=
  micros t2_ucpu + micros t2_scpu

/-- The clock readings `test()` takes at one instant: `wall(&t)` and
`cpu(tv)` with `tv[0]` the user and `tv[1]` the system CPU time. -/
structure Snapshot where
  wall : Timeval
  ucpu : Timeval
  scpu : Timeval
  deriving DecidableEq

/-- The lookup phase of `test()` between the snapshots `t2` (taken after
`create`) and `t3` (taken after `randomaccess`): the three `timesub` calls of
lines 259-261 (benchi.c) followed by the computation of `f`. -/
def test_lookups_denominator (t2 t3 : Snapshot) : Int :=
  lookups_denominator (timesub t2.wall t3.wall).1 (timesub t2.ucpu t3.ucpu).1
    (timesub t2.scpu t3.scpu).1

/-- The populate phase of `test()` between the snapshots `t1` and `t2`: the
three `timesub` calls of lines 239-241 (benchi.c) followed by the computation
of `f`. -/
def test_puts_denominator (t1 t2 : Snapshot) : Int :=
  puts_denominator (timesub t1.wall t2.wall).1 (timesub t1.ucpu t2.ucpu).1
    (timesub t1.scpu t2.scpu).1

/-! ## Byte strings and `sprintf` conversions -/

/-- A byte string: the bytes of a C string before its terminating NUL, or the
`mv_size` bytes at `mv_data` of an `MDB_val`. -/
abbrev Bytes := List Nat

/-- The bytes of a string literal of the source. -/
def ascii (s : String) : Bytes := s.toList.map Char.toNat

/-- Decimal digits of `n`, most significant first, as ASCII bytes; `fuel`
bounds the number of digits produced. -/
def decimal : Nat → Nat → Bytes
  | 0, _ => []
  | fuel + 1, n => if n < 10 then [48 + n] else decimal fuel (n / 10) ++ [48 + n % 10]

/-- The decimal numeral of a natural number (no leading zero, `"0"` for zero). -/
def fmt_u (n : Nat) : Bytes := decimal (n + 1) n

/-- The conversion `%d` of `printf` applied to an `int`. -/
def fmt_d (i : Int) : Bytes :=
  if i < 0 then 45 :: fmt_u i.natAbs else fmt_u i.natAbs

/-- The conversion `%09d` of `printf` applied to an `int`: the numeral is
padded with zeros, after the sign, up to the minimum field width 9. -/
def fmt_09d (i : Int) : Bytes :=
  let ds := fmt_u i.natAbs
  if i < 0 then 45 :: (List.replicate (8 - ds.length) 48 ++ ds)
  else List.replicate (9 - ds.length) 48 ++ ds

/-- The key of index `i` in bench_mdb.c: `sprintf(mykey, "key_%09d", i)`. -/
def fmt_key (i : Int) : Bytes := ascii "key_" ++ fmt_09d i

/-- The value of index `i` in all three harnesses:
`sprintf(myvalue, "value_%d", i)`. -/
def fmt_value (i : Int) : Bytes := ascii "value_" ++ fmt_d i

/-- The key of index `i` in bench_mdbi.c and benchi.c: the `sizeof(int)` bytes
at `&i` (32-bit two's complement, least significant byte first). -/
def int_key (i : Int) : Bytes :=
  let u := (i % 4294967296).toNat
  [u % 256, u / 256 % 256, u / 65536 % 256, u / 16777216 % 256]

/-- Conversion to `size_t`: reduction modulo `2 ^ 64`. -/
def size_t (x : Nat) : Nat := x % 2 ^ 64

/-- The test `memcmp(a, b, len)` of the harnesses, which only ask whether the
result is zero: `0` when the first `len` bytes agree and `1` (standing for any
non-zero result) otherwise. -/
def memcmp (a b : Bytes) (len : Nat) : Int :=
  if a.take len = b.take len then 0 else 1

/-- Bytewise lexicographic order on byte strings, a proper prefix being smaller:
the order of `memcmp` followed by the comparison of lengths, which an
append-only bulk load requires of consecutive keys. -/
def bytesLt : Bytes → Bytes → Bool
  | [], [] => false
  | [], _ :: _ => true
  | _ :: _, [] => false
  | a :: as, b :: bs => decide (a < b) || (decide (a = b) && bytesLt as bs)

/-- The `w` low decimal digits of `n`, most significant first, as ASCII bytes:
the numeral of `n` padded with zeros to the width `w` when `n < 10 ^ w`. -/
def fixedWidth : Nat → Nat → Bytes
  | 0, _ => []
  | w + 1, n => fixedWidth w (n / 10) ++ [48 + n % 10]

/-- The number a string of ASCII digits denotes. -/
def digitsValue (bs : Bytes) : Nat := bs.foldl (fun acc b => acc * 10 + (b - 48)) 0

/-! ## Programs against an external storage engine -/

/-- How a run of a harness function ends: it comes back to its caller with a
result, or the process terminates through `exit(code)`. -/
inductive Outcome (α : Type) where
  | returned (a : α) : Outcome α
  | exited (code : Int) : Outcome α
  deriving DecidableEq

/-- What an engine call hands back: the return code, the bytes left in the
data out-parameter (`val` of `mdb_cursor_get`, `valuebuf` of
`sparkey_logiter_fill_value`) and the number left in a numeric out-parameter or
returned as the result (`ms_psize`, `me_last_pgno`, an iterator state, a
length). -/
structure Reply where
  rc : Int
  val : Bytes
  num : Nat
  deriving DecidableEq

/-- A storage engine with calls of type `κ` and internal states of type `σ`.
The engines are not part of the harness: `call` is whatever the library does,
`success` is its success code (`MDB_SUCCESS`, `SPARKEY_SUCCESS`) and `strerror`
its error description (`mdb_strerror`, `sparkey_errstring`). -/
structure Engine (κ σ : Type) where
  call : σ → κ → Reply × σ
  success : Int
  strerror : Int → Bytes

/-- The state a harness function runs in: the engine state, the engine calls
made so far with their replies (oldest first), the text written to standard
output, and the global `dsize`. -/
structure World (κ σ : Type) where
  eng : σ
  log : List (κ × Reply)
  out : Bytes
  dsize : Nat

/-- A harness computation: from a world to an outcome and the world it leaves. -/
def Prog (κ σ α : Type) : Type := World κ σ → Outcome α × World κ σ

/-- Sequencing: the rest of the computation runs only when the first part
returned; `exit` cuts it short. -/
def Prog.bind {κ σ α β : Type} (m : Prog κ σ α) (f : α → Prog κ σ β) : Prog κ σ β :=
  fun w =>
    match m w with
    | (Outcome.returned a, w1) => f a w1
    | (Outcome.exited c, w1) => (Outcome.exited c, w1)

/-- A computation that returns at once. -/
def Prog.pure {κ σ α : Type} (a : α) : Prog κ σ α := fun w => (Outcome.returned a, w)

instance (κ σ : Type) : Monad (Prog κ σ) where
  pure := Prog.pure
  bind := Prog.bind

/-- One call into the engine; the call and its reply are appended to the log. -/
def engine {κ σ : Type} (E : Engine κ σ) (c : κ) : Prog κ σ Reply :=
  fun w =>
    match w with
    | { eng := s, log := log, out := out, dsize := dsize } =>
      match E.call s c with
      | (r, s1) =>
        (Outcome.returned r, { eng := s1, log := log ++ [(c, r)], out := out, dsize := dsize })

/-- The call `printf` with the text it writes. -/
def printf {κ σ : Type} (text : Bytes) : Prog κ σ Unit :=
  fun w =>
    match w with
    | { eng := s, log := log, out := out, dsize := dsize } =>
      (Outcome.returned (), { eng := s, log := log, out := out ++ text, dsize := dsize })

/-- The call `exit(code)`. -/
def exit {κ σ α : Type} (code : Int) : Prog κ σ α :=
  fun w => (Outcome.exited code, w)

/-- The functions `_mdb_assert` and `_sparkey_assert` behind the macros
`mdb_assert(i)` and `sparkey_assert(i)`, with `file` and `line` standing for
`__FILE__` and `__LINE__`:

    if (i != MDB_SUCCESS) {
      printf("%s:%d: assertion failed: %s\n", file, line, mdb_strerror(i));
      exit(i);
    }
-/
def engine_assert {κ σ : Type} (E : Engine κ σ) (file : Bytes) (line : Nat) (i : Int) :
    Prog κ σ Unit :=
  if i ≠ E.success then do
    printf (file ++ ascii ":" ++ fmt_d line ++ ascii ": assertion failed: "
      ++ E.strerror i ++ ascii "\n")
    exit i
  else
    pure ()

/-! ### LMDB harnesses (bench_mdb.c and bench_mdbi.c) -/

/-- The flag and cursor-operation constants of lmdb.h that the harnesses pass. -/
inductive MdbFlag where
  | MDB_NOSYNC | MDB_WRITEMAP | MDB_NOSUBDIR | MDB_RDONLY | MDB_INTEGERKEY
  | MDB_APPEND | MDB_SET
  deriving DecidableEq

/-- The LMDB functions the harnesses call, with the arguments that carry data. -/
inductive MdbCall where
  | env_create : MdbCall
  | env_set_mapsize (size : Int) : MdbCall
  | env_open (path : String) (flags : List MdbFlag) (mode : Nat) : MdbCall
  | txn_begin (flags : List MdbFlag) : MdbCall
  | dbi_open (flags : List MdbFlag) : MdbCall
  | cursor_open : MdbCall
  | cursor_put (key val : Bytes) (flags : List MdbFlag) : MdbCall
  | txn_commit : MdbCall
  | env_stat : MdbCall
  | env_info : MdbCall
  | env_close : MdbCall
  | cursor_get (key : Bytes) (op : MdbFlag) : MdbCall
  | cursor_close : MdbCall
  | txn_abort : MdbCall
  deriving DecidableEq

/-- The assignment to the global `dsize`. -/
def set_dsize {σ : Type} (v : Nat) : Prog MdbCall σ Unit :=
  fun w =>
    match w with
    | { eng := s, log := log, out := out, dsize := _ } =>
      (Outcome.returned (), { eng := s, log := log, out := out, dsize := v })

namespace bench_mdb

/-- The value of `__FILE__` in bench_mdb.c. -/
def file : Bytes := ascii "bench_mdb.c"

/-- The macro `mdb_assert(i)` of bench_mdb.c used on source line `line`. -/
def mdb_assert {σ : Type} (E : Engine MdbCall σ) (line : Nat) (i : Int) : Prog MdbCall σ Unit :=
  engine_assert E file line i

/-- The `for` loop of `mdb_create` (bench_mdb.c lines 186-196) with `rem`
iterations still to run, that is `rem = n - i` on entry:

    for (i = 0, j=0; i < n; i++,j++) {
      key.mv_size = sprintf(mykey, "key_%09d", i);
      val.mv_size = sprintf(myvalue, "value_%d", i);
      mdb_assert(mdb_cursor_put(mc, &key, &val, MDB_APPEND));
      if (j==999) {
        j = 0;
        mdb_assert(mdb_txn_commit(txn));
        mdb_assert(mdb_txn_begin(env, NULL, 0, &txn));
        mdb_assert(mdb_cursor_open(txn, dbi, &mc));
      }
    }
-/
def create_loop {σ : Type} (E : Engine MdbCall σ) : Nat → Int → Int → Prog MdbCall σ Unit
  | 0, _, _ => pure ()
  | rem + 1, i, j => do
    let mykey := fmt_key i
    let myvalue := fmt_value i
    let r ← engine E (MdbCall.cursor_put mykey myvalue [MdbFlag.MDB_APPEND])
    mdb_assert E 189 r.rc
    let j1 ← (if j = 999 then do
        let r ← engine E MdbCall.txn_commit
        mdb_assert E 192 r.rc
        let r ← engine E (MdbCall.txn_begin [])
        mdb_assert E 193 r.rc
        let r ← engine E MdbCall.cursor_open
        mdb_assert E 194 r.rc
        pure 0
      else pure j)
    create_loop E rem (i + 1) (j1 + 1)

/-- The function `mdb_create(n)` of bench_mdb.c (lines 166-202). -/
def mdb_create {σ : Type} (E : Engine MdbCall σ) (n : Int) : Prog MdbCall σ Unit := do
  let r ← engine E MdbCall.env_create
  mdb_assert E 180 r.rc
  let r ← engine E (MdbCall.env_set_mapsize (n * 64 * 2))
  mdb_assert E 181 r.rc
  let r ← engine E (MdbCall.env_open "test.mdb"
    [MdbFlag.MDB_NOSYNC, MdbFlag.MDB_WRITEMAP, MdbFlag.MDB_NOSUBDIR] 436)
  mdb_assert E 182 r.rc
  let r ← engine E (MdbCall.txn_begin [])
  mdb_assert E 183 r.rc
  let r ← engine E (MdbCall.dbi_open [])
  mdb_assert E 184 r.rc
  let r ← engine E MdbCall.cursor_open
  mdb_assert E 185 r.rc
  create_loop E n.toNat 0 0
  let _ ← engine E MdbCall.txn_commit
  let ms ← engine E MdbCall.env_stat
  let info ← engine E MdbCall.env_info
  set_dsize (size_t (ms.num * info.num))
  let _ ← engine E MdbCall.env_close
  pure ()

/-- The `for` loop of `mdb_randomaccess` (bench_mdb.c lines 222-233) with `rem`
iterations still to run; `rand k` is the value of the `k`-th call of `rand()`
in this run and `i` the loop counter, which numbers the calls:

    for (i = 0; i < lookups; i++) {
      int r = rand() % n;
      int vlen;
      key.mv_size = sprintf(mykey, "key_%09d", r);
      vlen = sprintf(myvalue, "value_%d", r);
      mdb_assert(mdb_cursor_get(mc, &key, &val, MDB_SET));
      if (val.mv_size != vlen || memcmp(myvalue, val.mv_data, val.mv_size)) {
        printf("Did not get the expected value for key: %s\n", mykey);
        exit(1);
      }
    }
-/
def access_loop {σ : Type} (E : Engine MdbCall σ) (rand : Nat → Nat) (n : Int) :
    Nat → Nat → Prog MdbCall σ Unit
  | 0, _ => pure ()
  | rem + 1, i => do
    let r : Int := Int.tmod (rand i) n
    let mykey := fmt_key r
    let myvalue := fmt_value r
    let vlen := myvalue.length
    let val ← engine E (MdbCall.cursor_get mykey MdbFlag.MDB_SET)
    mdb_assert E 227 val.rc
    if val.val.length ≠ vlen ∨ memcmp myvalue val.val val.val.length ≠ 0 then do
      printf (ascii "Did not get the expected value for key: " ++ mykey ++ ascii "\n")
      exit 1
    else
      access_loop E rand n rem (i + 1)

/-- The function `mdb_randomaccess(n, lookups)` of bench_mdb.c (lines 204-237). -/
def mdb_randomaccess {σ : Type} (E : Engine MdbCall σ) (rand : Nat → Nat) (n lookups : Int) :
    Prog MdbCall σ Unit := do
  let r ← engine E MdbCall.env_create
  mdb_assert E 214 r.rc
  let r ← engine E (MdbCall.env_open "test.mdb" [MdbFlag.MDB_RDONLY, MdbFlag.MDB_NOSUBDIR] 436)
  mdb_assert E 215 r.rc
  let r ← engine E (MdbCall.txn_begin [MdbFlag.MDB_RDONLY])
  mdb_assert E 216 r.rc
  let r ← engine E (MdbCall.dbi_open [])
  mdb_assert E 217 r.rc
  let r ← engine E MdbCall.cursor_open
  mdb_assert E 218 r.rc
  access_loop E rand n lookups.toNat 0
  let _ ← engine E MdbCall.cursor_close
  let _ ← engine E MdbCall.txn_abort
  let _ ← engine E MdbCall.env_close
  pure ()

end bench_mdb

namespace bench_mdbi

/-- The value of `__FILE__` in bench_mdbi.c. -/
def file : Bytes := ascii "bench_mdbi.c"

/-- The macro `mdb_assert(i)` of bench_mdbi.c used on source line `line`. -/
def mdb_assert {σ : Type} (E : Engine MdbCall σ) (line : Nat) (i : Int) : Prog MdbCall σ Unit :=
  engine_assert E file line i

/-- The `for` loop of `mdb_create` (bench_mdbi.c lines 176-185) with `rem`
iterations still to run; the key is the `int` `i` itself:

    for (i = 0, j=0; i < n; i++,j++) {
      val.mv_size = sprintf(myvalue, "value_%d", i);
      mdb_assert(mdb_cursor_put(mc, &key, &val, MDB_APPEND));
      if (j==999) {
        j = 0;
        mdb_assert(mdb_txn_commit(txn));
        mdb_assert(mdb_txn_begin(env, NULL, 0, &txn));
        mdb_assert(mdb_cursor_open(txn, dbi, &mc));
      }
    }
-/
def create_loop {σ : Type} (E : Engine MdbCall σ) : Nat → Int → Int → Prog MdbCall σ Unit
  | 0, _, _ => pure ()
  | rem + 1, i, j => do
    let myvalue := fmt_value i
    let r ← engine E (MdbCall.cursor_put (int_key i) myvalue [MdbFlag.MDB_APPEND])
    mdb_assert E 178 r.rc
    let j1 ← (if j = 999 then do
        let r ← engine E MdbCall.txn_commit
        mdb_assert E 181 r.rc
        let r ← engine E (MdbCall.txn_begin [])
        mdb_assert E 182 r.rc
        let r ← engine E MdbCall.cursor_open
        mdb_assert E 183 r.rc
        pure 0
      else pure j)
    create_loop E rem (i + 1) (j1 + 1)

/-- The function `mdb_create(n)` of bench_mdbi.c (lines 156-191). -/
def mdb_create {σ : Type} (E : Engine MdbCall σ) (n : Int) : Prog MdbCall σ Unit := do
  let r ← engine E MdbCall.env_create
  mdb_assert E 170 r.rc
  let r ← engine E (MdbCall.env_set_mapsize (n * 64 * 2))
  mdb_assert E 171 r.rc
  let r ← engine E (MdbCall.env_open "test.mdb"
    [MdbFlag.MDB_NOSYNC, MdbFlag.MDB_WRITEMAP, MdbFlag.MDB_NOSUBDIR] 436)
  mdb_assert E 172 r.rc
  let r ← engine E (MdbCall.txn_begin [])
  mdb_assert E 173 r.rc
  let r ← engine E (MdbCall.dbi_open [MdbFlag.MDB_INTEGERKEY])
  mdb_assert E 174 r.rc
  let r ← engine E MdbCall.cursor_open
  mdb_assert E 175 r.rc
  create_loop E n.toNat 0 0
  let _ ← engine E MdbCall.txn_commit
  let ms ← engine E MdbCall.env_stat
  let info ← engine E MdbCall.env_info
  set_dsize (size_t (ms.num * info.num))
  let _ ← engine E MdbCall.env_close
  pure ()

/-- The `for` loop of `mdb_randomaccess` (bench_mdbi.c lines 212-222) with
`rem` iterations still to run.  The buffer `char mykey[100]` is declared at line
198 and never written by the function; `mykey` is the C string that the
uninitialised buffer happens to hold when `printf` reads it.

    for (i = 0; i < lookups; i++) {
      r = rand() % n;
      int vlen;
      vlen = sprintf(myvalue, "value_%d", r);
      mdb_assert(mdb_cursor_get(mc, &key, &val, MDB_SET));
      if (val.mv_size != vlen || memcmp(myvalue, val.mv_data, val.mv_size)) {
        printf("Did not get the expected value for key: %s\n", mykey);
        exit(1);
      }
    }
-/
def access_loop {σ : Type} (E : Engine MdbCall σ) (rand : Nat → Nat) (mykey : Bytes) (n : Int) :
    Nat → Nat → Prog MdbCall σ Unit
  | 0, _ => pure ()
  | rem + 1, i => do
    let r : Int := Int.tmod (rand i) n
    let myvalue := fmt_value r
    let vlen := myvalue.length
    let val ← engine E (MdbCall.cursor_get (int_key r) MdbFlag.MDB_SET)
    mdb_assert E 216 val.rc
    if val.val.length ≠ vlen ∨ memcmp myvalue val.val val.val.length ≠ 0 then do
      printf (ascii "Did not get the expected value for key: " ++ mykey ++ ascii "\n")
      exit 1
    else
      access_loop E rand mykey n rem (i + 1)

/-- The function `mdb_randomaccess(n, lookups)` of bench_mdbi.c (lines
193-226); `mykey` is the content of the uninitialised buffer of that name. -/
def mdb_randomaccess {σ : Type} (E : Engine MdbCall σ) (rand : Nat → Nat) (mykey : Bytes)
    (n lookups : Int) : Prog MdbCall σ Unit := do
  let r ← engine E MdbCall.env_create
  mdb_assert E 203 r.rc
  let r ← engine E (MdbCall.env_open "test.mdb" [MdbFlag.MDB_RDONLY, MdbFlag.MDB_NOSUBDIR] 436)
  mdb_assert E 204 r.rc
  let r ← engine E (MdbCall.txn_begin [MdbFlag.MDB_RDONLY])
  mdb_assert E 205 r.rc
  let r ← engine E (MdbCall.dbi_open [])
  mdb_assert E 206 r.rc
  let r ← engine E MdbCall.cursor_open
  mdb_assert E 207 r.rc
  access_loop E rand mykey n lookups.toNat 0
  let _ ← engine E MdbCall.cursor_close
  let _ ← engine E MdbCall.txn_abort
  let _ ← engine E MdbCall.env_close
  pure ()

end bench_mdbi

/-! ### Sparkey harness (benchi.c) -/

/-- The Sparkey functions `sparkey_randomaccess` calls, with the arguments that
carry data. -/
inductive SpkCall where
  | hash_open (hash log : String) : SpkCall
  | hash_getreader : SpkCall
  | logiter_create : SpkCall
  | logreader_maxvaluelen : SpkCall
  | hash_get (key : Bytes) : SpkCall
  | logiter_state : SpkCall
  | logiter_valuelen : SpkCall
  | logiter_fill_value (maxlen : Nat) : SpkCall
  | logiter_close : SpkCall
  | hash_close : SpkCall
  deriving DecidableEq

namespace benchi

/-- The value of `__FILE__` in benchi.c. -/
def file : Bytes := ascii "benchi.c"

/-- The macro `sparkey_assert(i)` of benchi.c used on source line `line`. -/
def sparkey_assert {σ : Type} (E : Engine SpkCall σ) (line : Nat) (i : Int) :
    Prog SpkCall σ Unit :=
  engine_assert E file line i

/-- The `for` loop of `sparkey_randomaccess` (benchi.c lines 176-193) with
`rem` iterations still to run.  `ITER_ACTIVE` is the enumerator
`SPARKEY_ITER_ACTIVE` of sparkey.h; the reply of `sparkey_logiter_fill_value`
carries the bytes written to `valuebuf`, whose count is `actual_valuelen`.

    for (int i = 0; i < lookups; i++) {
      char myvalue[100];
      int r = rand() % n;
      sprintf(myvalue, "value_%d", r);
      sparkey_assert(sparkey_hash_get(myreader, (uint8_t*)&r, sizeof(r), myiter));
      if (sparkey_logiter_state(myiter) != SPARKEY_ITER_ACTIVE) {
        printf("Failed to lookup key: %d\n", r);
        exit(1);
      }
      uint64_t wanted_valuelen = sparkey_logiter_valuelen(myiter);
      uint64_t actual_valuelen;
      sparkey_assert(sparkey_logiter_fill_value(myiter, logreader, wanted_valuelen,
                                                valuebuf, &actual_valuelen));
      if (actual_valuelen != strlen(myvalue) || memcmp(myvalue, valuebuf, actual_valuelen)) {
        printf("Did not get the expected value for key: %d\n", r);
        exit(1);
      }
    }
-/
def access_loop {σ : Type} (E : Engine SpkCall σ) (ITER_ACTIVE : Nat) (rand : Nat → Nat)
    (n : Int) : Nat → Nat → Prog SpkCall σ Unit
  | 0, _ => pure ()
  | rem + 1, i => do
    let r : Int := Int.tmod (rand i) n
    let myvalue := fmt_value r
    let g ← engine E (SpkCall.hash_get (int_key r))
    sparkey_assert E 180 g.rc
    let st ← engine E SpkCall.logiter_state
    if st.num ≠ ITER_ACTIVE then do
      printf (ascii "Failed to lookup key: " ++ fmt_d r ++ ascii "\n")
      exit 1
    else do
      let wanted ← engine E SpkCall.logiter_valuelen
      let fill ← engine E (SpkCall.logiter_fill_value wanted.num)
      sparkey_assert E 188 fill.rc
      let actual_valuelen := fill.val.length
      if actual_valuelen ≠ myvalue.length ∨ memcmp myvalue fill.val actual_valuelen ≠ 0 then do
        printf (ascii "Did not get the expected value for key: " ++ fmt_d r ++ ascii "\n")
        exit 1
      else
        access_loop E ITER_ACTIVE rand n rem (i + 1)

/-- The function `sparkey_randomaccess(n, lookups)` of benchi.c (lines
167-196). -/
def sparkey_randomaccess {σ : Type} (E : Engine SpkCall σ) (ITER_ACTIVE : Nat)
    (rand : Nat → Nat) (n lookups : Int) : Prog SpkCall σ Unit := do
  let r ← engine E (SpkCall.hash_open "test.spi" "test.spl")
  sparkey_assert E 170 r.rc
  let _ ← engine E SpkCall.hash_getreader
  let r ← engine E SpkCall.logiter_create
  sparkey_assert E 172 r.rc
  let _ ← engine E SpkCall.logreader_maxvaluelen
  access_loop E ITER_ACTIVE rand n lookups.toNat 0
  let _ ← engine E SpkCall.logiter_close
  let _ ← engine E SpkCall.hash_close
  pure ()

end benchi

/-! ### Engines used to exercise the harnesses -/

/-- A world in which nothing has happened yet. -/
def World.init {κ σ : Type} (s : σ) : World κ σ :=
  { eng := s, log := [], out := [], dsize := 0 }

/-- The reply of a call that succeeds and hands back no data. -/
def Reply.ok : Reply := { rc := 0, val := [], num := 0 }

/-- The LMDB code `MDB_SUCCESS` of lmdb.h. -/
def MDB_SUCCESS : Int := 0

/-- The LMDB code `MDB_NOTFOUND` of lmdb.h. -/
def MDB_NOTFOUND : Int := -30798

/-- The ideal key-value store of the round-trip property.  Its state is the
list of the pairs put so far, newest first.  A put stores the value under the
key, a get returns the value last stored under the key and fails with
`MDB_NOTFOUND` when the key is absent; every other call succeeds. -/
def idealStore : Engine MdbCall (List (Bytes × Bytes)) where
  call := fun s c =>
    match c with
    | MdbCall.cursor_put key val _ => (Reply.ok, (key, val) :: s)
    | MdbCall.cursor_get key _ =>
      match s.lookup key with
      | some v => ({ rc := 0, val := v, num := 0 }, s)
      | none => ({ rc := MDB_NOTFOUND, val := [], num := 0 }, s)
    | _ => (Reply.ok, s)
  success := MDB_SUCCESS
  strerror := fun _ => []

/-- An engine that follows a script: its state counts the calls made so far and
the `k`-th call (from 0) gets the reply `script k`, whatever the call is.  Its
success code is 0, the value of `MDB_SUCCESS` and of `SPARKEY_SUCCESS`. -/
def scripted {κ : Type} (script : Nat → Reply) : Engine κ Nat where
  call := fun k _ => (script k, k + 1)
  success := 0
  strerror := fun _ => []

/-- The calls of a log, without their replies. -/
def calls {κ : Type} (log : List (κ × Reply)) : List κ := log.map Prod.fst

/-- The keys of the `mdb_cursor_put` calls of a log, in the order of the calls. -/
def putKeys (log : List (MdbCall × Reply)) : List Bytes :=
  log.filterMap fun e =>
    match e.1 with
    | MdbCall.cursor_put key _ _ => some key
    | _ => none

/-- The `mdb_cursor_get` calls of a log, in the order of the calls: for each,
the key asked for, the return code and the bytes handed back in `val`. -/
def gets (log : List (MdbCall × Reply)) : List (Bytes × Int × Bytes) :=
  log.filterMap fun e =>
    match e.1 with
    | MdbCall.cursor_get key _ => some (key, e.2.rc, e.2.val)
    | _ => none

/-- The property `Puts m L`: whenever the computation `m` returns it has put exactly the keys
`L`, in this order, and whenever it exits it has put a prefix of `L`. -/
def Puts {σ α : Type} (m : Prog MdbCall σ α) (L : List Bytes) : Prop :=
  ∀ w : World MdbCall σ,
    (∀ a w1, m w = (Outcome.returned a, w1) → putKeys w1.log = putKeys w.log ++ L) ∧
    (∀ c w1, m w = (Outcome.exited c, w1) →
      ∃ L1, L1 <+: L ∧ putKeys w1.log = putKeys w.log ++ L1)

/-- The property `Stored m s`: the store `s` answers every key of an index below `m` with
the value of that index. -/
def Stored (m : Nat) (s : List (Bytes × Bytes)) : Prop :=
  ∀ r : Nat, r < m → s.lookup (fmt_key (r : Int)) = some (fmt_value (r : Int))

/-- The property `Calls m L`: whenever the computation `m` returns it has made
exactly the engine calls `L`, in this order, and whenever it exits it has made
a prefix of `L`. -/
def Calls {σ α : Type} (m : Prog MdbCall σ α) (L : List MdbCall) : Prop :=
  ∀ w : World MdbCall σ,
    (∀ a w1, m w = (Outcome.returned a, w1) → calls w1.log = calls w.log ++ L) ∧
    (∀ c w1, m w = (Outcome.exited c, w1) →
      ∃ L1, L1 <+: L ∧ calls w1.log = calls w.log ++ L1)

/-- A node of the model file system: a regular file with its byte length, a
directory with its entries (name and node, without the pseudo-entries `.` and
`..`), or an entry of any other type (a FIFO, a socket, a device; symbolic
links, which `stat` and `opendir` would follow, are not modelled). -/
inductive Node where
  | reg (size : Nat) : Node
  | dir (entries : List (String × Node)) : Node
  | other : Node

/-- The entries of a directory.  The state of the file system is the list of
the entries of the working directory. -/
abbrev Dir := List (String × Node)

/-- A path name relative to the working directory, split at the slashes into
its components (entry names, `.` and `..`; a component is not empty and has no
slash in it): the string `"%s/%s"` of `dir` and `d_name` is `dir ++ [d_name]`.
The path names are taken to fit the buffers `char subdir[100]` they are
formatted into. -/
abbrev Path := List String

/-- The node reached from a node by going down along entry names: every name
but the last must be that of a directory.  This is not yet path resolution:
the components `.` and `..` are resolved by `resolveFrom`. -/
def descend : Node → Path → Option Node
  | n, [] => some n
  | Node.dir es, a :: p =>
    match List.lookup a es with
    | some n => descend n p
    | none => none
  | _, _ :: _ => none

/-- Path resolution, component by component.  `cur` is the position reached so
far, as the entry names from the root; the components still to come are
resolved from there.  Each component is looked up in a directory, so what has
been reached must be one (`ENOENT`, `ENOTDIR` otherwise); `.` stays there, `..`
goes one level up (the root is its own parent), a name goes down to the entry
of that name.  Whether the last name exists is for the caller to check. -/
def resolveFrom (fs : Dir) : Path → Path → Option Path
  | cur, [] => some cur
  | cur, c :: rest =>
    match descend (Node.dir fs) cur with
    | some (Node.dir _) =>
      if c = "." then resolveFrom fs cur rest
      else if c = ".." then resolveFrom fs cur.dropLast rest
      else resolveFrom fs (cur ++ [c]) rest
    | _ => none

/-- What `stat(path, &buf)` finds: the node the path names, or nothing, in
which case `stat` returns -1.  The empty path names nothing. -/
def stat (fs : Dir) (path : Path) : Option Node :=
  match path with
  | [] => none
  | _ :: _ => (resolveFrom fs [] path).bind (descend (Node.dir fs))

/-- The entries of a directory without those called `a`. -/
def eraseName (es : Dir) (a : String) : Dir := es.filter (fun e => e.1 != a)

/-- The entries of a directory with the node of the entry called `a` replaced. -/
def setName (es : Dir) (a : String) (n : Node) : Dir :=
  es.map (fun e => if e.1 == a then (a, n) else e)

/-- The removal of the entry at a position given by entry names: a regular
file, an entry of another type and an empty directory are deleted; a
directory that is not empty stays, and so does everything when the names lead
to nothing. -/
def removeAt : Dir → Path → Dir
  | es, [] => es
  | es, [a] =>
    match List.lookup a es with
    | some (Node.dir (_ :: _)) => es
    | some _ => eraseName es a
    | none => es
  | es, a :: b :: p =>
    match List.lookup a es with
    | some (Node.dir sub) => setName es a (Node.dir (removeAt sub (b :: p)))
    | _ => es

/-- The call `remove(path)`, whose result the callers ignore.  The directory
of the last component is resolved; there a regular file, an entry of another
type and an empty directory are deleted.  The call fails, and the file system
stays as it is, on a directory that is not empty, on a path that names nothing,
on the empty path, and on a path whose last component is `.` or `..` (`rmdir`
refuses those). -/
def remove (fs : Dir) (path : Path) : Dir :=
  match path.getLast? with
  | none => fs
  | some c =>
    if c = "." ∨ c = ".." then fs
    else
      match resolveFrom fs [] path.dropLast with
      | some d => removeAt fs (d ++ [c])
      | none => fs

/-- The values of `d_type` the code tells apart. -/
inductive DType where
  | DT_DIR | DT_REG | DT_OTHER
  deriving DecidableEq

/-- The fields of `struct dirent` the code reads. -/
structure Dirent where
  d_name : String
  d_type : DType
  deriving DecidableEq

/-- The `d_type` of a node. -/
def Node.d_type : Node → DType
  | Node.reg _ => DType.DT_REG
  | Node.dir _ => DType.DT_DIR
  | Node.other => DType.DT_OTHER

/-- The call `opendir(path)` together with the `readdir` calls that follow it:
`none` when the path does not name a directory (`opendir` returns `NULL`),
otherwise the entries `readdir` hands out until it returns `NULL`, which are
`.`, `..` and the entries the directory has when it is opened, in the order of
the list, each with the `d_type` of its node. -/
def opendir (fs : Dir) (path : Path) : Option (List Dirent) :=
  match stat fs path with
  | some (Node.dir es) =>
    some ({ d_name := ".", d_type := DType.DT_DIR } ::
      { d_name := "..", d_type := DType.DT_DIR } ::
      es.map (fun e => { d_name := e.1, d_type := e.2.d_type }))
  | _ => none

/-- The `while ((d = readdir(tmpd)))` loop of `rm_rec` over the entries still
to come, `rec` being the recursive call:

    sprintf(subdir, "%s/%s", dir, d->d_name);
    if(strcmp(d->d_name, ".") && strcmp(d->d_name, "..")) {
      if (d->d_type == DT_DIR) {
        rm_rec(subdir);
      } else if (d->d_type == DT_REG) {
        remove(subdir);
      }
    }
-/
def rm_entries (rec : Dir → Path → Option Dir) (dir : Path) : List Dirent → Dir → Option Dir
  | [], fs => some fs
  | d :: ds, fs =>
    let subdir := dir ++ [d.d_name]
    if d.d_name ≠ "." ∧ d.d_name ≠ ".." then
      if d.d_type = DType.DT_DIR then
        match rec fs subdir with
        | some fs1 => rm_entries rec dir ds fs1
        | none => none
      else if d.d_type = DType.DT_REG then
        rm_entries rec dir ds (remove fs subdir)
      else
        rm_entries rec dir ds fs
    else
      rm_entries rec dir ds fs

/-- The function `rm_rec(dir)` (benchi.c lines 35-54): the file system it
leaves.  `fuel` bounds the depth of the recursion; `none` means the bound was
reached.

    DIR *tmpd = opendir(dir);
    if (tmpd != NULL) {
      struct dirent *d;
      while ((d = readdir(tmpd))) { ... }
      closedir(tmpd);
    }
    remove(dir);
-/
def rm_rec : Nat → Dir → Path → Option Dir
  | 0, _, _ => none
  | fuel + 1, fs, dir =>
    match opendir fs dir with
    | some ents =>
      match rm_entries (rm_rec fuel) dir ents fs with
      | some fs1 => some (remove fs1 dir)
      | none => none
    | none => some (remove fs dir)

/-- The function `rm_all_rec(files)` (benchi.c lines 56-66) on the paths before
the terminating `NULL`. -/
def rm_all_rec (fuel : Nat) : Dir → List Path → Option Dir
  | fs, [] => some fs
  | fs, filename :: files =>
    match rm_rec fuel fs filename with
    | some fs1 => rm_all_rec fuel fs1 files
    | none => none

/-- The node at a position given by entry names; the empty position stands
for no path. -/
def statAt (fs : Dir) (path : Path) : Option Node :=
  match path with
  | [] => none
  | _ :: _ => descend (Node.dir fs) path

/-- The `while ((d = readdir(tmpd)))` loop of `file_size_rec` over the entries
still to come, with the running `sum`; `rec` is the recursive call:

    sprintf(subdir, "%s/%s", dir, d->d_name);
    if(strcmp(d->d_name, ".") && strcmp(d->d_name, "..")) {
      sum += file_size_rec(subdir);
    }
-/
def size_entries (rec : Path → Option (Outcome Nat)) (dir : Path) :
    List Dirent → Nat → Option (Outcome Nat)
  | [], sum => some (Outcome.returned sum)
  | d :: ds, sum =>
    let subdir := dir ++ [d.d_name]
    if d.d_name ≠ "." ∧ d.d_name ≠ ".." then
      match rec subdir with
      | some (Outcome.returned s) => size_entries rec dir ds (size_t (sum + s))
      | some (Outcome.exited c) => some (Outcome.exited c)
      | none => none
    else
      size_entries rec dir ds sum

/-- The function `file_size_rec(dir)` (benchi.c lines 69-93).  `fuel` bounds the
depth of the recursion; `none` means the bound was reached.  A failing `stat`
returns -1, which `errno_assert` passes to `exit`.

    struct stat buf;
    errno_assert(stat(dir, &buf));
    if (S_ISREG(buf.st_mode)) {
      return buf.st_size;
    } else if (S_ISDIR(buf.st_mode)) {
      size_t sum = 0;
      DIR *tmpd = opendir(dir);
      if (tmpd != NULL) { ... closedir(tmpd); }
      return sum;
    } else {
      return 0;
    }
-/
def file_size_rec : Nat → Dir → Path → Option (Outcome Nat)
  | 0, _, _ => none
  | fuel + 1, fs, dir =>
    match stat fs dir with
    | none => some (Outcome.exited (-1))
    | some (Node.reg size) => some (Outcome.returned (size_t size))
    | some (Node.dir _) =>
      match opendir fs dir with
      | some ents => size_entries (file_size_rec fuel fs) dir ents 0
      | none => some (Outcome.returned 0)
    | some Node.other => some (Outcome.returned 0)

/-- The function `total_file_size(files)` (benchi.c lines 95-106) on the paths
before the terminating `NULL`, with the running `sum`. -/
def total_file_size_from (fuel : Nat) (fs : Dir) : List Path → Nat → Option (Outcome Nat)
  | [], sum => some (Outcome.returned sum)
  | filename :: files, sum =>
    match file_size_rec fuel fs filename with
    | some (Outcome.returned s) => total_file_size_from fuel fs files (size_t (sum + s))
    | some (Outcome.exited c) => some (Outcome.exited c)
    | none => none

/-- The function `total_file_size(files)`: `size_t sum = 0` and the loop. -/
def total_file_size (fuel : Nat) (fs : Dir) (files : List Path) : Option (Outcome Nat) :=
  total_file_size_from fuel fs files 0

mutual
/-- The number of directory levels of a node: a bound on the recursion depth. -/
def height : Node → Nat
  | Node.reg _ => 0
  | Node.other => 0
  | Node.dir es => heightEntries es + 1
/-- The largest height among the nodes of the entries. -/
def heightEntries : List (String × Node) → Nat
  | [] => 0
  | (_, n) :: r => max (height n) (heightEntries r)
end

mutual
/-- Well-formed nodes: in every directory no entry is called `.` or `..` and no
two entries have the same name. -/
def wf : Node → Bool
  | Node.reg _ => true
  | Node.other => true
  | Node.dir es => wfEntries es
/-- Well-formed entry lists. -/
def wfEntries : List (String × Node) → Bool
  | [] => true
  | (a, n) :: r =>
    a != "." && a != ".." && !(r.any (fun e => e.1 == a)) && wf n && wfEntries r
end

mutual
/-- The size of a node as the specification words it: a regular file
contributes its byte length, a directory the sum of the contributions of its
entries, an entry of any other type contributes 0. -/
def specSize : Node → Nat
  | Node.reg size => size
  | Node.other => 0
  | Node.dir es => specSizeEntries es
/-- The sum of the contributions of the entries. -/
def specSizeEntries : List (String × Node) → Nat
  | [] => 0
  | (_, n) :: r => specSize n + specSizeEntries r
end

/-- Whether a node is an entry of another type. -/
def Node.isOther : Node → Bool
  | Node.other => true
  | _ => false

mutual
/-- Tidy nodes: every directory at or below the node holds only regular files
and directories.  The node itself may be of any type. -/
def tidy : Node → Bool
  | Node.reg _ => true
  | Node.other => true
  | Node.dir es => tidyEntries es
/-- Entry lists without an entry of another type, at any depth. -/
def tidyEntries : List (String × Node) → Bool
  | [] => true
  | (_, n) :: r => !n.isOther && tidy n && tidyEntries r
end

mutual
/-- What the `readdir` loop of `rm_rec` leaves of one entry of a directory:
nothing (`none`) of a regular file, an entry of another type as it is, and of a
directory what the loop leaves of its entries when that is something. -/
def pruneNode : Node → Option Node
  | Node.reg _ => none
  | Node.other => some Node.other
  | Node.dir es =>
    match pruneEntries es with
    | [] => none
    | e :: t => some (Node.dir (e :: t))
/-- What the `readdir` loop of `rm_rec` leaves of the entries of a directory. -/
def pruneEntries : List (String × Node) → List (String × Node)
  | [] => []
  | (a, n) :: r =>
    match pruneNode n with
    | none => pruneEntries r
    | some n1 => (a, n1) :: pruneEntries r
end

/-- An argument of a `printf` call of `test()`: an integer (`%d`, `%06d`,
`%zu`), a string (`%s`), or the quotient `(float) num / f` printed with
`%2.2f`, kept as the numerator and the exact value of `f` in microseconds. -/
inductive Arg where
  | int (i : Int) : Arg
  | str (s : String) : Arg
  | ratio (num micros : Int) : Arg
  deriving DecidableEq

/-- The three sets of clock variables of `test()`: `t1_wall` and `t1_cpu`,
`t2_wall` and `t2_cpu`, `t3_wall` and `t3_cpu`. -/
inductive Slot where
  | t1 | t2 | t3
  deriving DecidableEq

/-- The operations of `test()` that reach outside the function, in the order
they are performed: the `printf` calls with their arguments, the two helper
calls on the artifact list, the clock readings with the variable they fill, and
the two calls through the candidate. -/
inductive TestOp where
  | printf (format : String) (args : List Arg) : TestOp
  | rm_all_rec (files : List Path) : TestOp
  | wall (dst : Slot) : TestOp
  | cpu (dst : Slot) : TestOp
  | create (n : Int) : TestOp
  | total_file_size (files : List Path) : TestOp
  | randomaccess (n lookups : Int) : TestOp
  deriving DecidableEq

/-- The fields of `candidate` that `test()` reads as data; the functions
`create` and `randomaccess` are in the `Trial`. -/
structure Candidate where
  name : String
  files : List Path

/-- What surrounds one run of `test()`: the value the `k`-th call of `wall`
stores, the user and system times the `k`-th call of `cpu` stores, how the calls
through the candidate and the call of `total_file_size` end, and the value of
the global `dsize` after `create`. -/
structure Trial where
  wall : Nat → Timeval
  cpu : Nat → Timeval × Timeval
  create : Int → Outcome Unit
  total_file_size : List Path → Outcome Nat
  randomaccess : Int → Int → Outcome Unit
  dsize : Nat

/-- The state of a run of `test()`: the operations performed so far, oldest
first, and the numbers of clock readings made. -/
structure TestState where
  trace : List TestOp
  walls : Nat
  cpus : Nat

/-- A computation of `test()`. -/
def Steps (α : Type) : Type := TestState → Outcome α × TestState

/-- Sequencing of the computations of `test()`; an `exit` inside a call cuts the
rest short. -/
def Steps.bind {α β : Type} (m : Steps α) (f : α → Steps β) : Steps β :=
  fun st =>
    match m st with
    | (Outcome.returned a, st1) => f a st1
    | (Outcome.exited c, st1) => (Outcome.exited c, st1)

/-- A computation of `test()` that returns at once. -/
def Steps.pure {α : Type} (a : α) : Steps α := fun st => (Outcome.returned a, st)

instance : Monad Steps where
  pure := Steps.pure
  bind := Steps.bind

/-- An operation that comes back with the outcome `o`. -/
def perform {α : Type} (op : TestOp) (o : Outcome α) : Steps α :=
  fun st =>
    match st with
    | { trace := tr, walls := nw, cpus := nc } =>
      (o, { trace := tr ++ [op], walls := nw, cpus := nc })

/-- The call `wall(&t)`: `gettimeofday` fills the variable. -/
def wall (T : Trial) (dst : Slot) : Steps Timeval :=
  fun st =>
    match st with
    | { trace := tr, walls := nw, cpus := nc } =>
      (Outcome.returned (T.wall nw),
        { trace := tr ++ [TestOp.wall dst], walls := nw + 1, cpus := nc })

/-- The call `cpu(tv)`: `getrusage` fills `tv[0]` with the user time and `tv[1]`
with the system time. -/
def cpu (T : Trial) (dst : Slot) : Steps (Timeval × Timeval) :=
  fun st =>
    match st with
    | { trace := tr, walls := nw, cpus := nc } =>
      (Outcome.returned (T.cpu nc),
        { trace := tr ++ [TestOp.cpu dst], walls := nw, cpus := nc + 1 })

/-- A `printf` call of `test()`. -/
def tprintf (format : String) (args : List Arg) : Steps Unit :=
  perform (TestOp.printf format args) (Outcome.returned ())

namespace benchi

/-- The function `test(c, n, lookups)` of benchi.c (lines 222-272).  The
arguments `(int)t.tv_sec` and `(int)t.tv_usec` are kept before the conversion
to `int`. -/
def test (T : Trial) (c : Candidate) (n lookups : Int) : Steps Unit := do
  tprintf "Testing bulk insert of %d elements and %d random lookups\n"
    [Arg.int n, Arg.int lookups]
  tprintf "  Candidate: %s\n" [Arg.str c.name]
  perform (TestOp.rm_all_rec c.files) (Outcome.returned ())
  let t1_wall ← wall T Slot.t1
  let t1_cpu ← cpu T Slot.t1
  perform (TestOp.create n) (T.create n)
  let t2_wall ← wall T Slot.t2
  let t2_cpu ← cpu T Slot.t2
  let t1_wall := (timesub t1_wall t2_wall).1
  let t1_cpu0 := (timesub t1_cpu.1 t2_cpu.1).1
  let t1_cpu1 := (timesub t1_cpu.2 t2_cpu.2).1
  tprintf "    creation time (wall):     %d.%06d\n"
    [Arg.int t1_wall.tv_sec, Arg.int t1_wall.tv_usec]
  tprintf "    creation time (ucpu):     %d.%06d\n"
    [Arg.int t1_cpu0.tv_sec, Arg.int t1_cpu0.tv_usec]
  tprintf "    creation time (scpu):     %d.%06d\n"
    [Arg.int t1_cpu1.tv_sec, Arg.int t1_cpu1.tv_usec]
  let f := puts_denominator t1_wall t1_cpu0 t1_cpu1
  tprintf "    throughput (puts/cpusec): %2.2f\n" [Arg.ratio n f]
  let size ← perform (TestOp.total_file_size c.files) (T.total_file_size c.files)
  tprintf "    file size:                %zu\n" [Arg.int size]
  perform (TestOp.randomaccess n lookups) (T.randomaccess n lookups)
  let t3_wall ← wall T Slot.t3
  let t3_cpu ← cpu T Slot.t3
  let t2_wall := (timesub t2_wall t3_wall).1
  let t2_cpu0 := (timesub t2_cpu.1 t3_cpu.1).1
  let t2_cpu1 := (timesub t2_cpu.2 t3_cpu.2).1
  tprintf "    lookup time (wall):          %d.%06d\n"
    [Arg.int t2_wall.tv_sec, Arg.int t2_wall.tv_usec]
  tprintf "    lookup time (ucpu):          %d.%06d\n"
    [Arg.int t2_cpu0.tv_sec, Arg.int t2_cpu0.tv_usec]
  tprintf "    lookup time (scpu):          %d.%06d\n"
    [Arg.int t2_cpu1.tv_sec, Arg.int t2_cpu1.tv_usec]
  let f := lookups_denominator t2_wall t2_cpu0 t2_cpu1
  tprintf "    throughput (lookups/cpusec): %2.2f\n" [Arg.ratio lookups f]
  perform (TestOp.rm_all_rec c.files) (Outcome.returned ())
  tprintf "\n" []

end benchi

namespace bench_mdbi

/-- The function `test(c, n, lookups)` of bench_mdbi.c (lines 256-306), which
differs from the one of benchi.c in the line that reports the size: it prints
the global `dsize`.  The arguments `(int)t.tv_sec` and `(int)t.tv_usec` are
kept before the conversion to `int`. -/
def test (T : Trial) (c : Candidate) (n lookups : Int) : Steps Unit := do
  tprintf "Testing bulk insert of %d elements and %d random lookups\n"
    [Arg.int n, Arg.int lookups]
  tprintf "  Candidate: %s\n" [Arg.str c.name]
  perform (TestOp.rm_all_rec c.files) (Outcome.returned ())
  let t1_wall ← wall T Slot.t1
  let t1_cpu ← cpu T Slot.t1
  perform (TestOp.create n) (T.create n)
  let t2_wall ← wall T Slot.t2
  let t2_cpu ← cpu T Slot.t2
  let t1_wall := (timesub t1_wall t2_wall).1
  let t1_cpu0 := (timesub t1_cpu.1 t2_cpu.1).1
  let t1_cpu1 := (timesub t1_cpu.2 t2_cpu.2).1
  tprintf "    creation time (wall):     %d.%06d\n"
    [Arg.int t1_wall.tv_sec, Arg.int t1_wall.tv_usec]
  tprintf "    creation time (ucpu):     %d.%06d\n"
    [Arg.int t1_cpu0.tv_sec, Arg.int t1_cpu0.tv_usec]
  tprintf "    creation time (scpu):     %d.%06d\n"
    [Arg.int t1_cpu1.tv_sec, Arg.int t1_cpu1.tv_usec]
  let f := puts_denominator t1_wall t1_cpu0 t1_cpu1
  tprintf "    throughput (puts/cpusec): %2.2f\n" [Arg.ratio n f]
  tprintf "    data size:                %zu\n" [Arg.int T.dsize]
  perform (TestOp.randomaccess n lookups) (T.randomaccess n lookups)
  let t3_wall ← wall T Slot.t3
  let t3_cpu ← cpu T Slot.t3
  let t2_wall := (timesub t2_wall t3_wall).1
  let t2_cpu0 := (timesub t2_cpu.1 t3_cpu.1).1
  let t2_cpu1 := (timesub t2_cpu.2 t3_cpu.2).1
  tprintf "    lookup time (wall):          %d.%06d\n"
    [Arg.int t2_wall.tv_sec, Arg.int t2_wall.tv_usec]
  tprintf "    lookup time (ucpu):          %d.%06d\n"
    [Arg.int t2_cpu0.tv_sec, Arg.int t2_cpu0.tv_usec]
  tprintf "    lookup time (scpu):          %d.%06d\n"
    [Arg.int t2_cpu1.tv_sec, Arg.int t2_cpu1.tv_usec]
  let f := lookups_denominator t2_wall t2_cpu0 t2_cpu1
  tprintf "    throughput (lookups/cpusec): %2.2f\n" [Arg.ratio lookups f]
  perform (TestOp.rm_all_rec c.files) (Outcome.returned ())
  tprintf "\n" []

end bench_mdbi

/-- The state in which `test()` starts. -/
def TestState.init : TestState := { trace := [], walls := 0, cpus := 0 }

/-- A trial in which every call returns: the wall clock reads 100, 105 and
107.5 seconds, the user CPU time 0.010, 2.010 and 3.010 seconds, the system
CPU time 0.002, 0.502 and 0.602 seconds; the artifacts take 4096 bytes. -/
def sampleTrial : Trial where
  wall := fun k => if k = 0 then ⟨100, 0⟩ else if k = 1 then ⟨105, 0⟩ else ⟨107, 500000⟩
  cpu := fun k =>
    if k = 0 then (⟨0, 10000⟩, ⟨0, 2000⟩)
    else if k = 1 then (⟨2, 10000⟩, ⟨0, 502000⟩)
    else (⟨3, 10000⟩, ⟨0, 602000⟩)
  create := fun _ => Outcome.returned ()
  total_file_size := fun _ => Outcome.returned 4096
  randomaccess := fun _ _ => Outcome.returned ()
  dsize := 4096

/-- The data of `sparkey_candidate_uncompressed` of benchi.c. -/
def sparkey_candidate_uncompressed : Candidate :=
  { name := "Sparkey uncompressed", files := [["test.spi"], ["test.spl"]] }

/-- The data of `mdb_candidate_uncompressed` of bench_mdbi.c. -/
def mdb_candidate_uncompressed : Candidate :=
  { name := "LMDB uncompressed", files := [["test.mdb"]] }


/-! ## Properties of the clock arithmetic -/

/-- On clock readings (seconds from 0 up to `2 ^ 62`, microseconds in
`[0, 1000000)`) every value `timesub` computes fits the signed 64-bit fields, so
the integer arithmetic of the embedding is the arithmetic of the C code. -/
theorem timesub_values_fit (tv1 tv2 : Timeval)
    (s1 : 0 ≤ tv1.tv_sec ∧ tv1.tv_sec < 4611686018427387904)
    (s2 : 0 ≤ tv2.tv_sec ∧ tv2.tv_sec < 4611686018427387904)
    (u1 : 0 ≤ tv1.tv_usec ∧ tv1.tv_usec < 1000000)
    (u2 : 0 ≤ tv2.tv_usec ∧ tv2.tv_usec < 1000000) :
    ∀ x ∈ timesub_values tv1 tv2, fitsLong x := by
  intro x hx
  simp only [timesub_values] at hx
  simp only [fitsLong]
  split at hx <;> simp only [List.mem_cons, List.mem_singleton, List.mem_nil_iff, or_false] at hx
    <;> omega

theorem wrapLong_of_fits (x : Int) (h : fitsLong x) : wrapLong x = x := by
  unfold fitsLong at h
  unfold wrapLong
  omega

/-- C3 as stated fails: the fields of `struct timeval` are signed 64-bit, and
with the start `LONG_MIN` seconds and the end 1 second the difference of the
seconds does not fit; the field is left with `-9223372036854775807` seconds,
which is not the end minus the start. -/
theorem timesub_overflow :
    (0 ≤ (0 : Int) ∧ (0 : Int) < 1000000) ∧
    fitsLong (-9223372036854775808) ∧ fitsLong 1 ∧
    (timesub ⟨-9223372036854775808, 0⟩ ⟨1, 0⟩).1 = ⟨-9223372036854775807, 0⟩ ∧
    (timesub ⟨-9223372036854775808, 0⟩ ⟨1, 0⟩).1.tv_sec * 1000000
        + (timesub ⟨-9223372036854775808, 0⟩ ⟨1, 0⟩).1.tv_usec
      ≠ ((1 : Int) * 1000000 + 0) - (-9223372036854775808 * 1000000 + 0) := by
  refine ⟨by decide, ⟨by decide, by decide⟩, ⟨by decide, by decide⟩, by decide, by decide⟩

/-- C3, amended: for all timestamps `tv1` (start) and `tv2` (end) whose
`tv_usec` fields lie in `[0, 1000000)` and on which no computation of `timesub`
overflows the signed 64-bit fields (the exact results all fit, as they do on
clock readings), the value `timesub(tv1, tv2)` leaves in `tv1` has
`0 <= tv_usec < 1000000` and, counted in microseconds, is exactly the end minus
the start, also when `tv2.tv_usec < tv1.tv_usec` (sub-second borrow); `tv2` is
unchanged. -/
theorem timesub_exact (tv1 tv2 : Timeval)
    (h1 : 0 ≤ tv1.tv_usec ∧ tv1.tv_usec < 1000000)
    (h2 : 0 ≤ tv2.tv_usec ∧ tv2.tv_usec < 1000000)
    (hfit : ∀ x ∈ timesub_values tv1 tv2, fitsLong x) :
    0 ≤ (timesub tv1 tv2).1.tv_usec ∧ (timesub tv1 tv2).1.tv_usec < 1000000 ∧
    (timesub tv1 tv2).1.tv_sec * 1000000 + (timesub tv1 tv2).1.tv_usec
      = (tv2.tv_sec * 1000000 + tv2.tv_usec) - (tv1.tv_sec * 1000000 + tv1.tv_usec) ∧
    (timesub tv1 tv2).2 = tv2 := by
  obtain ⟨a1, b1⟩ := h1
  obtain ⟨a2, b2⟩ := h2
  have hu : wrapLong (tv2.tv_usec - tv1.tv_usec) = tv2.tv_usec - tv1.tv_usec :=
    wrapLong_of_fits _ (by unfold fitsLong; omega)
  by_cases hb : tv2.tv_usec - tv1.tv_usec < 0
  · simp only [timesub_values, hb, if_true, List.mem_cons, List.mem_singleton, List.mem_nil_iff,
      or_false, forall_eq_or_imp, forall_eq] at hfit
    obtain ⟨_, f2, f3, f4⟩ := hfit
    simp only [timesub, hu, hb, if_true, wrapLong_of_fits _ f2, wrapLong_of_fits _ f3,
      wrapLong_of_fits _ f4]
    refine ⟨by omega, by omega, by omega, trivial⟩
  · simp only [timesub_values, hb, if_false, List.mem_cons, List.mem_singleton,
      List.mem_nil_iff, or_false, forall_eq_or_imp, forall_eq] at hfit
    obtain ⟨_, f2⟩ := hfit
    simp only [timesub, hu, hb, if_false, wrapLong_of_fits _ f2]
    refine ⟨by omega, by omega, by omega, trivial⟩

/-- C3, amended, at a borrow: start 3.999999 s, end 5.000001 s, elapsed
1.000002 s. -/
theorem timesub_exact_witness :
    (0 ≤ (999999 : Int) ∧ (999999 : Int) < 1000000) ∧
    (0 ≤ (1 : Int) ∧ (1 : Int) < 1000000) ∧
    timesub_values ⟨3, 999999⟩ ⟨5, 1⟩ = [-999998, 2, 4, 1] ∧
    (timesub ⟨3, 999999⟩ ⟨5, 1⟩).1 = ⟨1, 2⟩ ∧
    (0 ≤ (timesub ⟨3, 999999⟩ ⟨5, 1⟩).1.tv_usec ∧
      (timesub ⟨3, 999999⟩ ⟨5, 1⟩).1.tv_usec < 1000000 ∧
      (timesub ⟨3, 999999⟩ ⟨5, 1⟩).1.tv_sec * 1000000
          + (timesub ⟨3, 999999⟩ ⟨5, 1⟩).1.tv_usec
        = ((5 : Int) * 1000000 + 1) - (3 * 1000000 + 999999) ∧
      (timesub ⟨3, 999999⟩ ⟨5, 1⟩).2 = ⟨5, 1⟩) :=
  ⟨by decide, by decide, by decide, by decide,
    timesub_exact ⟨3, 999999⟩ ⟨5, 1⟩ (by decide) (by decide)
      (timesub_values_fit ⟨3, 999999⟩ ⟨5, 1⟩ (by decide) (by decide) (by decide) (by decide))⟩

/-- C4: the lookup throughput of `test()` has no fallback.  Between two
snapshots whose CPU readings are equal and whose wall clocks are one
microsecond apart, the denominator `f` of `lookups / f` is zero although the
wall-clock delta is not; the populate phase of the same function, on the same
snapshots, divides by the wall-clock delta. -/
theorem lookups_denominator_zero :
    test_lookups_denominator
        { wall := ⟨10, 0⟩, ucpu := ⟨0, 5000⟩, scpu := ⟨0, 1000⟩ }
        { wall := ⟨10, 1⟩, ucpu := ⟨0, 5000⟩, scpu := ⟨0, 1000⟩ } = 0 ∧
    micros (timesub ⟨10, 0⟩ ⟨10, 1⟩).1 = 1 ∧
    test_puts_denominator
        { wall := ⟨10, 0⟩, ucpu := ⟨0, 5000⟩, scpu := ⟨0, 1000⟩ }
        { wall := ⟨10, 1⟩, ucpu := ⟨0, 5000⟩, scpu := ⟨0, 1000⟩ } = 1 := by
  decide

/-- C5 as stated fails: with a user CPU delta of zero, a system CPU delta of
5 microseconds and a wall-clock delta of 10 microseconds the CPU sum is
non-zero, yet the denominator is the wall-clock delta and not the CPU sum. -/
theorem puts_denominator_not_cpu_sum :
    micros ⟨0, 0⟩ + micros ⟨0, 5⟩ ≠ 0 ∧
    puts_denominator ⟨0, 10⟩ ⟨0, 0⟩ ⟨0, 5⟩ = micros ⟨0, 10⟩ ∧
    puts_denominator ⟨0, 10⟩ ⟨0, 0⟩ ⟨0, 5⟩ ≠ micros ⟨0, 0⟩ + micros ⟨0, 5⟩ := by
  decide

/-- C5, amended: for all populate-phase deltas (wall, user CPU, system CPU, the
user delta with `tv_usec` in `[0, 1000000)` as `timesub` leaves it), the
denominator of the insert throughput is the wall-clock delta whenever the user
CPU delta is zero and is user CPU delta + system CPU delta whenever the user
CPU delta is non-zero. -/
theorem puts_denominator_by_user_cpu (t1_wall t1_ucpu t1_scpu : Timeval)
    (hu : 0 ≤ t1_ucpu.tv_usec ∧ t1_ucpu.tv_usec < 1000000) :
    (micros t1_ucpu = 0 → puts_denominator t1_wall t1_ucpu t1_scpu = micros t1_wall) ∧
    (micros t1_ucpu ≠ 0 →
      puts_denominator t1_wall t1_ucpu t1_scpu = micros t1_ucpu + micros t1_scpu) := by
  have key : (t1_ucpu.tv_sec = 0 ∧ t1_ucpu.tv_usec = 0) ↔ micros t1_ucpu = 0 := by
    unfold micros
    constructor
    · rintro ⟨a, b⟩
      rw [a, b]
      rfl
    · intro h
      omega
  constructor
  · intro h
    unfold puts_denominator
    rw [if_pos (key.mpr h)]
  · intro h
    unfold puts_denominator
    rw [if_neg (fun c => h (key.mp c))]

/-- C5, amended, on two populate phases: one with no user CPU time (the wall
clock is used) and one with 2 microseconds of user CPU time (the CPU sum is
used). -/
theorem puts_denominator_by_user_cpu_witness :
    (0 ≤ (0 : Int) ∧ (0 : Int) < 1000000) ∧
    puts_denominator ⟨0, 10⟩ ⟨0, 0⟩ ⟨0, 5⟩ = 10 ∧
    puts_denominator ⟨0, 10⟩ ⟨0, 2⟩ ⟨0, 5⟩ = 7 ∧
    ((micros ⟨0, 0⟩ = 0 → puts_denominator ⟨0, 10⟩ ⟨0, 0⟩ ⟨0, 5⟩ = micros ⟨0, 10⟩) ∧
     (micros ⟨0, 0⟩ ≠ 0 →
        puts_denominator ⟨0, 10⟩ ⟨0, 0⟩ ⟨0, 5⟩ = micros ⟨0, 0⟩ + micros ⟨0, 5⟩)) :=
  ⟨by decide, by decide, by decide,
    puts_denominator_by_user_cpu ⟨0, 10⟩ ⟨0, 0⟩ ⟨0, 5⟩ (by decide)⟩

/-! ## Properties of the `sprintf` conversions -/

theorem decimal_fuel (f : Nat) : ∀ (g n : Nat), n < f → n < g → decimal f n = decimal g n := by
  induction f with
  | zero => intro g n h; omega
  | succ f ih =>
    intro g n hf hg
    cases g with
    | zero => omega
    | succ g =>
      simp only [decimal]
      by_cases h10 : n < 10
      · simp [h10]
      · simp only [h10, if_false]
        rw [ih g (n / 10) (by omega) (by omega)]

theorem fmt_u_eq (n : Nat) :
    fmt_u n = if n < 10 then [48 + n] else fmt_u (n / 10) ++ [48 + n % 10] := by
  by_cases h10 : n < 10
  · simp [fmt_u, decimal, h10]
  · have step : decimal (n + 1) n = decimal n (n / 10) ++ [48 + n % 10] := by
      simp [decimal, h10]
    rw [if_neg h10]
    unfold fmt_u
    rw [step, decimal_fuel n (n / 10 + 1) (n / 10) (by omega) (by omega)]

theorem fmt_u_small (n : Nat) (h : n < 10) : fmt_u n = [48 + n] := by
  rw [fmt_u_eq, if_pos h]

theorem fmt_u_large (n : Nat) (h : ¬ n < 10) : fmt_u n = fmt_u (n / 10) ++ [48 + n % 10] := by
  rw [fmt_u_eq, if_neg h]

theorem digitsValue_append_singleton (bs : Bytes) (b : Nat) :
    digitsValue (bs ++ [b]) = digitsValue bs * 10 + (b - 48) := by
  simp [digitsValue, List.foldl_append]

theorem digitsValue_fmt_u (n : Nat) : digitsValue (fmt_u n) = n := by
  induction n using Nat.strong_induction_on with
  | _ n ih =>
    by_cases h10 : n < 10
    · rw [fmt_u_small n h10]
      simp [digitsValue]
    · rw [fmt_u_large n h10, digitsValue_append_singleton, ih (n / 10) (by omega)]
      omega

theorem digitsValue_zeros (k : Nat) (bs : Bytes) :
    digitsValue (List.replicate k 48 ++ bs) = digitsValue bs := by
  have aux : ∀ k : Nat, List.foldl (fun acc b => acc * 10 + (b - 48)) 0 (List.replicate k 48) = 0 := by
    intro k
    induction k with
    | zero => rfl
    | succ k ih => simp [List.replicate_succ, ih]
  simp [digitsValue, List.foldl_append, aux]

theorem fmt_09d_natCast (n : Nat) :
    fmt_09d (n : Int) = List.replicate (9 - (fmt_u n).length) 48 ++ fmt_u n := by
  simp [fmt_09d]

theorem fmt_d_natCast (n : Nat) : fmt_d (n : Int) = fmt_u n := by
  simp [fmt_d]

/-- The key formatting of bench_mdb.c is injective on the indices from 0 up:
two indices with the same key are equal. -/
theorem fmt_key_injective (i j : Nat) (h : fmt_key (i : Int) = fmt_key (j : Int)) : i = j := by
  unfold fmt_key at h
  have h2 := List.append_cancel_left h
  rw [fmt_09d_natCast, fmt_09d_natCast] at h2
  have h3 := congrArg digitsValue h2
  rwa [digitsValue_zeros, digitsValue_zeros, digitsValue_fmt_u, digitsValue_fmt_u] at h3

theorem fixedWidth_length (w : Nat) : ∀ n : Nat, (fixedWidth w n).length = w := by
  induction w with
  | zero => intro n; rfl
  | succ w ih => intro n; simp [fixedWidth, ih]

theorem fixedWidth_zero (w : Nat) : fixedWidth w 0 = List.replicate w 48 := by
  induction w with
  | zero => rfl
  | succ w ih => simp [fixedWidth, ih, List.replicate_succ']

theorem fmt_u_length_le (w : Nat) : ∀ n : Nat, n < 10 ^ (w + 1) → (fmt_u n).length ≤ w + 1 := by
  induction w with
  | zero =>
    intro n h
    rw [fmt_u_small n (by simpa using h)]
    simp
  | succ w ih =>
    intro n h
    by_cases h10 : n < 10
    · rw [fmt_u_small n h10]
      simp
    · rw [fmt_u_large n h10]
      have : n / 10 < 10 ^ (w + 1) := by
        rw [Nat.div_lt_iff_lt_mul (by decide)]
        rw [pow_succ] at h
        exact h
      have := ih (n / 10) this
      simp
      omega

theorem fmt_u_length_pos (n : Nat) : 0 < (fmt_u n).length := by
  by_cases h10 : n < 10
  · rw [fmt_u_small n h10]
    simp
  · rw [fmt_u_large n h10]
    simp

/-- Below `10 ^ w` the zero-padded numeral is the string of the `w` low digits. -/
theorem pad_eq_fixedWidth (w : Nat) :
    ∀ n : Nat, n < 10 ^ (w + 1) →
      List.replicate (w + 1 - (fmt_u n).length) 48 ++ fmt_u n = fixedWidth (w + 1) n := by
  induction w with
  | zero =>
    intro n h
    have h10 : n < 10 := by simpa using h
    rw [fmt_u_small n h10]
    simp [fixedWidth, Nat.mod_eq_of_lt h10]
  | succ w ih =>
    intro n h
    by_cases h10 : n < 10
    · rw [fmt_u_small n h10]
      have hz : n / 10 = 0 := by omega
      rw [fixedWidth, hz, fixedWidth_zero, Nat.mod_eq_of_lt h10]
      simp
    · rw [fmt_u_large n h10]
      have hlt : n / 10 < 10 ^ (w + 1) := by
        rw [Nat.div_lt_iff_lt_mul (by decide)]
        rw [pow_succ] at h
        exact h
      have hlen := fmt_u_length_le w (n / 10) hlt
      rw [fixedWidth, ← ih (n / 10) hlt]
      simp only [List.length_append, List.length_singleton, List.append_assoc]
      have : w + 1 + 1 - ((fmt_u (n / 10)).length + 1) = w + 1 - (fmt_u (n / 10)).length := by
        omega
      rw [this]

theorem fmt_09d_eq_fixedWidth (n : Nat) (h : n < 1000000000) :
    fmt_09d (n : Int) = fixedWidth 9 n := by
  rw [fmt_09d_natCast]
  exact pad_eq_fixedWidth 8 n (by norm_num; exact h)

theorem bytesLt_append_left (p a b : Bytes) : bytesLt (p ++ a) (p ++ b) = bytesLt a b := by
  induction p with
  | nil => rfl
  | cons x p ih => simp [bytesLt, ih]

theorem bytesLt_append_of_lt : ∀ (a b x y : Bytes), a.length = b.length →
    bytesLt a b = true → bytesLt (a ++ x) (b ++ y) = true := by
  intro a
  induction a with
  | nil =>
    intro b x y hl h
    cases b with
    | nil => simp [bytesLt] at h
    | cons _ _ => simp at hl
  | cons c a ih =>
    intro b x y hl h
    cases b with
    | nil => simp at hl
    | cons d b =>
      simp only [List.length_cons, Nat.add_right_cancel_iff] at hl
      simp only [bytesLt, Bool.or_eq_true, Bool.and_eq_true, decide_eq_true_eq] at h
      simp only [List.cons_append, bytesLt, Bool.or_eq_true, Bool.and_eq_true, decide_eq_true_eq]
      rcases h with h | ⟨h1, h2⟩
      · exact Or.inl h
      · exact Or.inr ⟨h1, ih b x y hl h2⟩

/-- On strings of `w` digits the bytewise order is the numeric order. -/
theorem fixedWidth_lt (w : Nat) :
    ∀ i j : Nat, i < j → j < 10 ^ w → bytesLt (fixedWidth w i) (fixedWidth w j) = true := by
  induction w with
  | zero =>
    intro i j hij hj
    simp at hj
    omega
  | succ w ih =>
    intro i j hij hj
    simp only [fixedWidth]
    by_cases hq : i / 10 < j / 10
    · have hjw : j / 10 < 10 ^ w := by
        rw [Nat.div_lt_iff_lt_mul (by decide)]
        rw [pow_succ] at hj
        exact hj
      exact bytesLt_append_of_lt _ _ _ _
        (by rw [fixedWidth_length, fixedWidth_length]) (ih _ _ hq hjw)
    · have he : i / 10 = j / 10 := by omega
      rw [he, bytesLt_append_left]
      have : i % 10 < j % 10 := by omega
      simp [bytesLt, this]

theorem fmt_key_length (n : Nat) (h : n < 1000000000) : (fmt_key (n : Int)).length = 13 := by
  rw [fmt_key, fmt_09d_eq_fixedWidth n h, List.length_append, fixedWidth_length]
  rfl

theorem fmt_key_lt (i j : Nat) (hij : i < j) (hj : j < 1000000000) :
    bytesLt (fmt_key (i : Int)) (fmt_key (j : Int)) = true := by
  rw [fmt_key, fmt_key, fmt_09d_eq_fixedWidth i (by omega), fmt_09d_eq_fixedWidth j hj,
    bytesLt_append_left]
  exact fixedWidth_lt 9 i j hij (by norm_num; exact hj)

/-! ## Properties of the programs against an engine -/

theorem bind_apply {κ σ α β : Type} (m : Prog κ σ α) (f : α → Prog κ σ β) (w : World κ σ) :
    (m >>= f) w = Prog.bind m f w := rfl

theorem pure_apply {κ σ α : Type} (a : α) (w : World κ σ) :
    (pure a : Prog κ σ α) w = (Outcome.returned a, w) := rfl

theorem Prog.bind_assoc {κ σ α β γ : Type} (m : Prog κ σ α) (f : α → Prog κ σ β)
    (g : β → Prog κ σ γ) : (m >>= f) >>= g = m >>= fun a => f a >>= g := by
  funext w
  simp only [bind_apply, Prog.bind]
  rcases m w with ⟨o, w1⟩
  cases o <;> rfl

theorem Prog.pure_bind {κ σ α β : Type} (a : α) (f : α → Prog κ σ β) :
    (pure a : Prog κ σ α) >>= f = f a := by
  funext w
  rfl

theorem bind_returned {κ σ α β : Type} (m : Prog κ σ α) (f : α → Prog κ σ β)
    (w w1 : World κ σ) (a : α) (h : m w = (Outcome.returned a, w1)) :
    (m >>= f) w = f a w1 := by
  simp only [bind_apply, Prog.bind, h]

theorem bind_exited {κ σ α β : Type} (m : Prog κ σ α) (f : α → Prog κ σ β)
    (w w1 : World κ σ) (c : Int) (h : m w = (Outcome.exited c, w1)) :
    (m >>= f) w = (Outcome.exited c, w1) := by
  simp only [bind_apply, Prog.bind, h]

theorem engine_apply {κ σ : Type} (E : Engine κ σ) (c : κ) (w : World κ σ) :
    engine E c w = (Outcome.returned (E.call w.eng c).1,
      { eng := (E.call w.eng c).2, log := w.log ++ [(c, (E.call w.eng c).1)],
        out := w.out, dsize := w.dsize }) := by
  cases w
  simp only [engine]

theorem printf_apply {κ σ : Type} (text : Bytes) (w : World κ σ) :
    (printf text : Prog κ σ Unit) w = (Outcome.returned (),
      { eng := w.eng, log := w.log, out := w.out ++ text, dsize := w.dsize }) := by
  cases w
  rfl

theorem set_dsize_apply {σ : Type} (v : Nat) (w : World MdbCall σ) :
    (set_dsize v : Prog MdbCall σ Unit) w = (Outcome.returned (),
      { eng := w.eng, log := w.log, out := w.out, dsize := v }) := by
  cases w
  rfl

theorem engine_assert_ok {κ σ : Type} (E : Engine κ σ) (file : Bytes) (line : Nat) (i : Int)
    (w : World κ σ) (h : i = E.success) :
    engine_assert E file line i w = (Outcome.returned (), w) := by
  simp [engine_assert, h, pure_apply]

theorem engine_assert_fail {κ σ : Type} (E : Engine κ σ) (file : Bytes) (line : Nat) (i : Int)
    (w : World κ σ) (h : i ≠ E.success) :
    ∃ w1, engine_assert E file line i w = (Outcome.exited i, w1) ∧ w1.eng = w.eng ∧
      w1.log = w.log := by
  simp [engine_assert, h, bind_apply, Prog.bind, printf_apply, exit]

theorem Puts.bind {σ α β : Type} {m : Prog MdbCall σ α} {f : α → Prog MdbCall σ β}
    {L1 L2 : List Bytes} (hm : Puts m L1) (hf : ∀ a, Puts (f a) L2) :
    Puts (m >>= f) (L1 ++ L2) := by
  intro w
  rcases hmw : m w with ⟨o, w1⟩
  cases o with
  | returned a =>
    have h1 := (hm w).1 a w1 hmw
    constructor
    · intro b w2 h
      simp only [bind_apply, Prog.bind, hmw] at h
      rw [(hf a w1).1 b w2 h, h1, List.append_assoc]
    · intro c w2 h
      simp only [bind_apply, Prog.bind, hmw] at h
      obtain ⟨L3, hp, he⟩ := (hf a w1).2 c w2 h
      refine ⟨L1 ++ L3, (List.prefix_append_right_inj L1).mpr hp, ?_⟩
      rw [he, h1, List.append_assoc]
  | exited c =>
    constructor
    · intro b w2 h
      simp [bind_apply, Prog.bind, hmw] at h
    · intro c2 w2 h
      simp only [bind_apply, Prog.bind, hmw, Prod.mk.injEq, Outcome.exited.injEq] at h
      obtain ⟨L3, hp, he⟩ := (hm w).2 c w1 hmw
      refine ⟨L3, hp.trans (List.prefix_append L1 L2), ?_⟩
      rw [← h.2, he]

theorem Puts.pure {σ α : Type} (a : α) : Puts (pure a : Prog MdbCall σ α) [] := by
  intro w
  constructor
  · intro b w1 h
    simp only [pure_apply, Prod.mk.injEq] at h
    simp [← h.2]
  · intro c w1 h
    simp [pure_apply] at h

theorem Puts.assert {σ : Type} (E : Engine MdbCall σ) (file : Bytes) (line : Nat) (i : Int) :
    Puts (engine_assert E file line i) [] := by
  intro w
  by_cases hi : i = E.success
  · rw [engine_assert_ok E file line i w hi]
    constructor
    · intro b w1 h
      simp only [Prod.mk.injEq] at h
      simp [← h.2]
    · intro c w1 h
      simp at h
  · obtain ⟨w2, he, _, hl⟩ := engine_assert_fail E file line i w hi
    rw [he]
    constructor
    · intro b w1 h
      simp at h
    · intro c w1 h
      simp only [Prod.mk.injEq] at h
      exact ⟨[], List.prefix_refl _, by simp [← h.2, hl]⟩

theorem Puts.engine_put {σ : Type} (E : Engine MdbCall σ) (key val : Bytes)
    (flags : List MdbFlag) : Puts (engine E (MdbCall.cursor_put key val flags)) [key] := by
  intro w
  rw [engine_apply]
  constructor
  · intro b w1 h
    simp only [Prod.mk.injEq] at h
    simp [← h.2, putKeys, List.filterMap_append]
  · intro c w1 h
    simp at h

theorem Puts.engine_other {σ : Type} (E : Engine MdbCall σ) (c : MdbCall)
    (hc : ∀ key val flags, c ≠ MdbCall.cursor_put key val flags) : Puts (engine E c) [] := by
  intro w
  rw [engine_apply]
  constructor
  · intro b w1 h
    simp only [Prod.mk.injEq] at h
    cases c <;> first
      | exact absurd rfl (hc _ _ _)
      | simp [← h.2, putKeys, List.filterMap_append]
  · intro c w1 h
    simp at h

theorem Puts.set_dsize {σ : Type} (v : Nat) : Puts (set_dsize v : Prog MdbCall σ Unit) [] := by
  intro w
  rw [set_dsize_apply]
  constructor
  · intro b w1 h
    simp only [Prod.mk.injEq] at h
    simp [← h.2]
  · intro c w1 h
    simp at h

/-- A checked engine call that is not a put puts no key. -/
theorem Puts.checked {σ β : Type} (E : Engine MdbCall σ) (c : MdbCall) (file : Bytes)
    (line : Nat) (hc : ∀ key val flags, c ≠ MdbCall.cursor_put key val flags)
    {k : Prog MdbCall σ β} {L : List Bytes} (hk : Puts k L) :
    Puts (engine E c >>= fun r => engine_assert E file line r.rc >>= fun _ => k) L := by
  have h := Puts.bind (Puts.engine_other E c hc)
    (fun r => Puts.bind (Puts.assert E file line r.rc) (fun _ => hk))
  simpa using h

theorem Puts.congr {σ α : Type} {m : Prog MdbCall σ α} {L L1 : List Bytes} (h : Puts m L)
    (e : L = L1) : Puts m L1 := e ▸ h

theorem range_map_succ (rem : Nat) (i : Int) :
    (List.range (rem + 1)).map (fun k => fmt_key (i + (k : Nat))) =
      fmt_key i :: (List.range rem).map (fun k => fmt_key (i + 1 + (k : Nat))) := by
  rw [List.range_succ_eq_map, List.map_cons, List.map_map]
  simp only [Nat.cast_zero, add_zero, List.cons.injEq, true_and]
  apply List.map_congr_left
  intro k _
  simp only [Function.comp, Nat.succ_eq_add_one, Nat.cast_add, Nat.cast_one]
  congr 1
  omega

/-- The loop of `mdb_create` with `rem` iterations to run from index `i` puts
the keys of `i`, `i + 1`, ..., `i + rem - 1` in this order (all of them when it
returns, the first few when it exits), whatever the engine answers. -/
theorem bench_mdb.create_loop_puts {σ : Type} (E : Engine MdbCall σ) :
    ∀ (rem : Nat) (i j : Int),
      Puts (bench_mdb.create_loop E rem i j)
        ((List.range rem).map (fun k => fmt_key (i + (k : Nat)))) := by
  intro rem
  induction rem with
  | zero =>
    intro i j
    exact Puts.pure ()
  | succ rem ih =>
    intro i j
    rw [range_map_succ]
    have hbranch : Puts (if j = 999 then
          (engine E MdbCall.txn_commit >>= fun r =>
            bench_mdb.mdb_assert E 192 r.rc >>= fun _ =>
            engine E (MdbCall.txn_begin []) >>= fun r =>
            bench_mdb.mdb_assert E 193 r.rc >>= fun _ =>
            engine E MdbCall.cursor_open >>= fun r =>
            bench_mdb.mdb_assert E 194 r.rc >>= fun _ => (pure 0 : Prog MdbCall σ Int))
        else pure j) [] := by
      split
      · exact Puts.checked E _ _ _ (by intro _ _ _ h; cases h)
          (Puts.checked E _ _ _ (by intro _ _ _ h; cases h)
            (Puts.checked E _ _ _ (by intro _ _ _ h; cases h) (Puts.pure 0)))
      · exact Puts.pure j
    have h := Puts.bind (Puts.engine_put E (fmt_key i) (fmt_value i) [MdbFlag.MDB_APPEND])
      (fun r => Puts.bind (Puts.assert E bench_mdb.file 189 r.rc)
        (fun _ => Puts.bind hbranch (fun j1 => ih (i + 1) (j1 + 1))))
    exact Puts.congr h (by simp)

theorem bench_mdb.mdb_create_puts {σ : Type} (E : Engine MdbCall σ) (n : Int) :
    Puts (bench_mdb.mdb_create E n)
      ((List.range n.toNat).map (fun k => fmt_key ((k : Nat) : Int))) := by
  have tail : Puts (engine E MdbCall.txn_commit >>= fun _ =>
      engine E MdbCall.env_stat >>= fun ms =>
      engine E MdbCall.env_info >>= fun info =>
      set_dsize (size_t (ms.num * info.num)) >>= fun _ =>
      engine E MdbCall.env_close >>= fun _ => (pure () : Prog MdbCall σ Unit)) [] := by
    have h := Puts.bind (Puts.engine_other E MdbCall.txn_commit (by intro _ _ _ h; cases h))
      (fun _ => Puts.bind (Puts.engine_other E MdbCall.env_stat (by intro _ _ _ h; cases h))
        (fun ms => Puts.bind
          (Puts.engine_other E MdbCall.env_info (by intro _ _ _ h; cases h))
          (fun info => Puts.bind (Puts.set_dsize (size_t (ms.num * info.num)))
            (fun _ => Puts.bind
              (Puts.engine_other E MdbCall.env_close (by intro _ _ _ h; cases h))
              (fun _ => Puts.pure ())))))
    simpa using h
  have loop := Puts.bind (bench_mdb.create_loop_puts E n.toNat 0 0) (fun _ => tail)
  have h := Puts.checked E MdbCall.env_create bench_mdb.file 180 (by intro _ _ _ h; cases h)
    (Puts.checked E (MdbCall.env_set_mapsize (n * 64 * 2)) bench_mdb.file 181
      (by intro _ _ _ h; cases h)
      (Puts.checked E (MdbCall.env_open "test.mdb"
          [MdbFlag.MDB_NOSYNC, MdbFlag.MDB_WRITEMAP, MdbFlag.MDB_NOSUBDIR] 436)
        bench_mdb.file 182 (by intro _ _ _ h; cases h)
        (Puts.checked E (MdbCall.txn_begin []) bench_mdb.file 183 (by intro _ _ _ h; cases h)
          (Puts.checked E (MdbCall.dbi_open []) bench_mdb.file 184 (by intro _ _ _ h; cases h)
            (Puts.checked E MdbCall.cursor_open bench_mdb.file 185
              (by intro _ _ _ h; cases h) loop)))))
  exact Puts.congr h (by simp)

theorem keys_pairwise (m : Nat) (hm : m ≤ 1000000000) :
    List.Pairwise (fun a b => bytesLt a b = true)
      ((List.range m).map (fun k => fmt_key ((k : Nat) : Int))) := by
  rw [List.pairwise_map]
  refine List.Pairwise.imp_of_mem ?_ (List.pairwise_lt_range m)
  intro a b _ hb hab
  exact fmt_key_lt a b hab (by have := List.mem_range.mp hb; omega)

/-- C7: for all indices `i < j` in `[0, 999999999]` the keys `"key_%09d"` of
`i` and of `j` both have length 13 and the key of `i` is strictly smaller than
the key of `j` in bytewise lexicographic order; and for every `n` with
`0 < n <= 1000000000`, against any engine in any state, the keys `mdb_create(n)`
puts form a strictly increasing sequence, which is the whole sequence of the
keys of `0 .. n-1` when the function returns. -/
theorem keys_strictly_increasing {σ : Type} (E : Engine MdbCall σ) (s : σ) (i j n : Int)
    (hi : 0 ≤ i) (hij : i < j) (hj : j ≤ 999999999) (hn : 0 < n) (hn1 : n ≤ 1000000000) :
    (fmt_key i).length = 13 ∧ (fmt_key j).length = 13 ∧
    bytesLt (fmt_key i) (fmt_key j) = true ∧
    List.Pairwise (fun a b => bytesLt a b = true)
      (putKeys (bench_mdb.mdb_create E n (World.init s)).2.log) ∧
    ((bench_mdb.mdb_create E n (World.init s)).1 = Outcome.returned () →
      putKeys (bench_mdb.mdb_create E n (World.init s)).2.log
        = (List.range n.toNat).map (fun k => fmt_key ((k : Nat) : Int))) := by
  obtain ⟨a, rfl⟩ := Int.eq_ofNat_of_zero_le hi
  obtain ⟨b, rfl⟩ := Int.eq_ofNat_of_zero_le (le_trans hi (le_of_lt hij))
  have hab : a < b := by omega
  have hb : b < 1000000000 := by omega
  refine ⟨fmt_key_length a (by omega), fmt_key_length b hb, fmt_key_lt a b hab hb, ?_, ?_⟩
  · have hp := bench_mdb.mdb_create_puts E n (World.init s)
    have hall := keys_pairwise n.toNat (by omega)
    rcases hr : bench_mdb.mdb_create E n (World.init s) with ⟨o, w1⟩
    cases o with
    | returned u =>
      have h1 := hp.1 u w1 hr
      simp only [World.init, putKeys, List.filterMap_nil, List.nil_append] at h1
      simp only [putKeys]
      rw [h1]
      exact hall
    | exited c =>
      obtain ⟨L1, hpre, h1⟩ := hp.2 c w1 hr
      simp only [World.init, putKeys, List.filterMap_nil, List.nil_append] at h1
      simp only [putKeys]
      rw [h1]
      exact hall.sublist hpre.sublist
  · intro hret
    have hp := bench_mdb.mdb_create_puts E n (World.init s)
    rcases hr : bench_mdb.mdb_create E n (World.init s) with ⟨o, w1⟩
    rw [hr] at hret
    simp only at hret
    subst hret
    have h1 := hp.1 () w1 hr
    simpa [World.init, putKeys] using h1

/-- C7 on the indices 41 and 42 and on `mdb_create(3)` against the ideal store. -/
theorem keys_strictly_increasing_witness :
    fmt_key 41 = ascii "key_000000041" ∧ fmt_key 42 = ascii "key_000000042" ∧
    putKeys (bench_mdb.mdb_create idealStore 3 (World.init [])).2.log
      = [ascii "key_000000000", ascii "key_000000001", ascii "key_000000002"] ∧
    ((fmt_key 41).length = 13 ∧ (fmt_key 42).length = 13 ∧
      bytesLt (fmt_key 41) (fmt_key 42) = true ∧
      List.Pairwise (fun a b => bytesLt a b = true)
        (putKeys (bench_mdb.mdb_create idealStore 3 (World.init [])).2.log) ∧
      ((bench_mdb.mdb_create idealStore 3 (World.init [])).1 = Outcome.returned () →
        putKeys (bench_mdb.mdb_create idealStore 3 (World.init [])).2.log
          = (List.range (3 : Int).toNat).map (fun k => fmt_key ((k : Nat) : Int)))) :=
  ⟨by decide, by decide, by decide,
    keys_strictly_increasing idealStore [] 41 42 3 (by decide) (by decide) (by decide)
      (by decide) (by decide)⟩

/-! ### Runs against the ideal store -/

theorem Stored.put (m : Nat) (s : List (Bytes × Bytes)) (h : Stored m s) :
    Stored (m + 1) ((fmt_key (m : Int), fmt_value (m : Int)) :: s) := by
  intro r hr
  by_cases e : r = m
  · subst e
    simp [List.lookup]
  · have hne : fmt_key (r : Int) ≠ fmt_key (m : Int) := fun c => e (fmt_key_injective r m c)
    have hb : (fmt_key (r : Int) == fmt_key (m : Int)) = false := by
      simpa using hne
    rw [List.lookup, hb]
    exact h r (by omega)

theorem gets_append_other (log : List (MdbCall × Reply)) (c : MdbCall) (r : Reply)
    (hc : ∀ key op, c ≠ MdbCall.cursor_get key op) : gets (log ++ [(c, r)]) = gets log := by
  cases c <;> first
    | exact absurd rfl (hc _ _)
    | simp [gets, List.filterMap_append]

theorem gets_append_get (log : List (MdbCall × Reply)) (key : Bytes) (op : MdbFlag) (r : Reply) :
    gets (log ++ [(MdbCall.cursor_get key op, r)]) = gets log ++ [(key, r.rc, r.val)] := by
  simp [gets, List.filterMap_append]

/-- Against the ideal store a checked call that is neither a put nor a get
succeeds: it adds its entry to the log and the run goes on. -/
theorem ideal_checked {β : Type} (c : MdbCall) (file : Bytes) (line : Nat)
    (k : Prog MdbCall (List (Bytes × Bytes)) β) (w : World MdbCall (List (Bytes × Bytes)))
    (hp : ∀ key val flags, c ≠ MdbCall.cursor_put key val flags)
    (hg : ∀ key op, c ≠ MdbCall.cursor_get key op) :
    (engine idealStore c >>= fun r => engine_assert idealStore file line r.rc >>= fun _ => k) w
      = k { eng := w.eng, log := w.log ++ [(c, Reply.ok)], out := w.out, dsize := w.dsize } := by
  have hcall : idealStore.call w.eng c = (Reply.ok, w.eng) := by
    cases c <;> first
      | exact absurd rfl (hp _ _ _)
      | exact absurd rfl (hg _ _)
      | rfl
  simp only [bind_apply, Prog.bind, engine_apply, hcall]
  rw [engine_assert_ok idealStore file line Reply.ok.rc _ rfl]

theorem ideal_unchecked {β : Type} (c : MdbCall)
    (k : Reply → Prog MdbCall (List (Bytes × Bytes)) β) (w : World MdbCall (List (Bytes × Bytes)))
    (hp : ∀ key val flags, c ≠ MdbCall.cursor_put key val flags)
    (hg : ∀ key op, c ≠ MdbCall.cursor_get key op) :
    (engine idealStore c >>= k) w
      = k Reply.ok
          { eng := w.eng, log := w.log ++ [(c, Reply.ok)], out := w.out, dsize := w.dsize } := by
  have hcall : idealStore.call w.eng c = (Reply.ok, w.eng) := by
    cases c <;> first
      | exact absurd rfl (hp _ _ _)
      | exact absurd rfl (hg _ _)
      | rfl
  simp only [bind_apply, Prog.bind, engine_apply, hcall]

theorem ideal_put {β : Type} (key val : Bytes) (flags : List MdbFlag) (file : Bytes) (line : Nat)
    (k : Prog MdbCall (List (Bytes × Bytes)) β) (w : World MdbCall (List (Bytes × Bytes))) :
    (engine idealStore (MdbCall.cursor_put key val flags) >>= fun r =>
        engine_assert idealStore file line r.rc >>= fun _ => k) w
      = k { eng := (key, val) :: w.eng,
            log := w.log ++ [(MdbCall.cursor_put key val flags, Reply.ok)],
            out := w.out, dsize := w.dsize } := by
  have hcall : idealStore.call w.eng (MdbCall.cursor_put key val flags)
      = (Reply.ok, (key, val) :: w.eng) := rfl
  simp only [bind_apply, Prog.bind, engine_apply, hcall]
  rw [engine_assert_ok idealStore file line Reply.ok.rc _ rfl]

/-- Against the ideal store the loop of `mdb_create` returns; it prints nothing,
makes no get, and extends the range of the stored indices by its `rem` puts. -/
theorem bench_mdb.create_loop_ideal :
    ∀ (rem m : Nat) (j : Int) (w : World MdbCall (List (Bytes × Bytes))),
      ∃ w1, bench_mdb.create_loop idealStore rem (m : Int) j w = (Outcome.returned (), w1) ∧
        w1.out = w.out ∧ gets w1.log = gets w.log ∧
        (Stored m w.eng → Stored (m + rem) w1.eng) := by
  intro rem
  induction rem with
  | zero =>
    intro m j w
    exact ⟨w, rfl, rfl, rfl, fun h => h⟩
  | succ rem ih =>
    intro m j w
    rw [bench_mdb.create_loop]
    simp only [bench_mdb.mdb_assert]
    rw [ideal_put]
    have hcast : ((m : Int) + 1) = ((m + 1 : Nat) : Int) := by push_cast; rfl
    have finish : ∀ (j1 : Int) (w0 : World MdbCall (List (Bytes × Bytes))),
        w0.eng = (fmt_key (m : Int), fmt_value (m : Int)) :: w.eng → w0.out = w.out →
        gets w0.log = gets w.log →
        ∃ w1, bench_mdb.create_loop idealStore rem ((m : Int) + 1) j1 w0
            = (Outcome.returned (), w1) ∧
          w1.out = w.out ∧ gets w1.log = gets w.log ∧
          (Stored m w.eng → Stored (m + (rem + 1)) w1.eng) := by
      intro j1 w0 he ho hg
      obtain ⟨w1, h1, h2, h3, h4⟩ := ih (m + 1) j1 w0
      refine ⟨w1, ?_, h2.trans ho, h3.trans hg, ?_⟩
      · rw [hcast]
        exact h1
      · intro hs
        have := h4 (he ▸ Stored.put m w.eng hs)
        rwa [Nat.add_assoc, Nat.add_comm 1 rem] at this
    have hput : gets (w.log ++ [(MdbCall.cursor_put (fmt_key (m : Int)) (fmt_value (m : Int))
        [MdbFlag.MDB_APPEND], Reply.ok)]) = gets w.log :=
      gets_append_other _ _ _ (by intro _ _ h; cases h)
    by_cases hj : j = 999
    · simp only [hj, if_true, Prog.bind_assoc, Prog.pure_bind]
      rw [ideal_checked _ _ _ _ _ (by intro _ _ _ h; cases h) (by intro _ _ h; cases h),
        ideal_checked _ _ _ _ _ (by intro _ _ _ h; cases h) (by intro _ _ h; cases h),
        ideal_checked _ _ _ _ _ (by intro _ _ _ h; cases h) (by intro _ _ h; cases h)]
      simp only [bind_apply, Prog.bind, pure_apply]
      refine finish _ _ ?_ ?_ ?_
      · rfl
      · rfl
      · simp only
        rw [gets_append_other _ _ _ (by intro _ _ h; cases h),
          gets_append_other _ _ _ (by intro _ _ h; cases h),
          gets_append_other _ _ _ (by intro _ _ h; cases h), hput]
    · simp only [hj, if_false, bind_apply, Prog.bind, pure_apply]
      refine finish _ _ ?_ ?_ ?_
      · rfl
      · rfl
      · exact hput

/-- Against the ideal store `mdb_create(n)` returns, prints nothing, makes no
get, and leaves every index below `n` stored with its value. -/
theorem bench_mdb.mdb_create_ideal (n : Int) (w : World MdbCall (List (Bytes × Bytes))) :
    ∃ w1, bench_mdb.mdb_create idealStore n w = (Outcome.returned (), w1) ∧
      w1.out = w.out ∧ gets w1.log = gets w.log ∧ Stored n.toNat w1.eng := by
  unfold bench_mdb.mdb_create
  simp only [bench_mdb.mdb_assert]
  rw [ideal_checked _ _ _ _ _ (by intro _ _ _ h; cases h) (by intro _ _ h; cases h),
    ideal_checked _ _ _ _ _ (by intro _ _ _ h; cases h) (by intro _ _ h; cases h),
    ideal_checked _ _ _ _ _ (by intro _ _ _ h; cases h) (by intro _ _ h; cases h),
    ideal_checked _ _ _ _ _ (by intro _ _ _ h; cases h) (by intro _ _ h; cases h),
    ideal_checked _ _ _ _ _ (by intro _ _ _ h; cases h) (by intro _ _ h; cases h),
    ideal_checked _ _ _ _ _ (by intro _ _ _ h; cases h) (by intro _ _ h; cases h)]
  obtain ⟨w1, h1, h2, h3, h4⟩ := bench_mdb.create_loop_ideal n.toNat 0 0
    { eng := w.eng,
      log := w.log ++ [(MdbCall.env_create, Reply.ok)]
        ++ [(MdbCall.env_set_mapsize (n * 64 * 2), Reply.ok)]
        ++ [(MdbCall.env_open "test.mdb"
              [MdbFlag.MDB_NOSYNC, MdbFlag.MDB_WRITEMAP, MdbFlag.MDB_NOSUBDIR] 436, Reply.ok)]
        ++ [(MdbCall.txn_begin [], Reply.ok)]
        ++ [(MdbCall.dbi_open [], Reply.ok)]
        ++ [(MdbCall.cursor_open, Reply.ok)],
      out := w.out, dsize := w.dsize }
  simp only [Nat.cast_zero] at h1
  rw [bind_returned _ _ _ _ _ h1,
    ideal_unchecked _ _ _ (by intro _ _ _ h; cases h) (by intro _ _ h; cases h),
    ideal_unchecked _ _ _ (by intro _ _ _ h; cases h) (by intro _ _ h; cases h),
    ideal_unchecked _ _ _ (by intro _ _ _ h; cases h) (by intro _ _ h; cases h),
    bind_returned _ _ _ _ _ (set_dsize_apply _ _),
    ideal_unchecked _ _ _ (by intro _ _ _ h; cases h) (by intro _ _ h; cases h)]
  refine ⟨_, rfl, ?_, ?_, ?_⟩
  · exact h2
  · simp only
    rw [gets_append_other _ _ _ (by intro _ _ h; cases h),
      gets_append_other _ _ _ (by intro _ _ h; cases h),
      gets_append_other _ _ _ (by intro _ _ h; cases h),
      gets_append_other _ _ _ (by intro _ _ h; cases h), h3]
    simp only
    rw [gets_append_other _ _ _ (by intro _ _ h; cases h),
      gets_append_other _ _ _ (by intro _ _ h; cases h),
      gets_append_other _ _ _ (by intro _ _ h; cases h),
      gets_append_other _ _ _ (by intro _ _ h; cases h),
      gets_append_other _ _ _ (by intro _ _ h; cases h),
      gets_append_other _ _ _ (by intro _ _ h; cases h)]
  · have := h4 (fun r hr => absurd hr (Nat.not_lt_zero r))
    simpa using this

theorem memcmp_self (a : Bytes) (len : Nat) : memcmp a a len = 0 := by
  simp [memcmp]

theorem sample_lt (a : Nat) (n : Int) (hn : 0 < n) :
    Int.tmod (a : Int) n = ((a % n.toNat : Nat) : Int) ∧ a % n.toNat < n.toNat := by
  obtain ⟨N, rfl⟩ := Int.eq_ofNat_of_zero_le (le_of_lt hn)
  have hN : 0 < N := by omega
  simp only [Int.toNat_ofNat]
  exact ⟨(Int.ofNat_tmod a N).symm, Nat.mod_lt a hN⟩

/-- Against the ideal store holding every index below `n`, the lookup loop of
`mdb_randomaccess` returns; it prints nothing and each of its gets succeeds
with the value of the sampled index. -/
theorem bench_mdb.access_loop_ideal (rand : Nat → Nat) (n : Int) (hn : 0 < n) :
    ∀ (rem i : Nat) (w : World MdbCall (List (Bytes × Bytes))), Stored n.toNat w.eng →
      ∃ w1, bench_mdb.access_loop idealStore rand n rem i w = (Outcome.returned (), w1) ∧
        w1.out = w.out ∧ w1.eng = w.eng ∧
        gets w1.log = gets w.log ++ (List.range rem).map (fun k =>
          (fmt_key (Int.tmod (rand (i + k)) n), (0 : Int),
            fmt_value (Int.tmod (rand (i + k)) n))) := by
  intro rem
  induction rem with
  | zero =>
    intro i w _
    exact ⟨w, rfl, rfl, rfl, by simp⟩
  | succ rem ih =>
    intro i w hs
    obtain ⟨hr, hlt⟩ := sample_lt (rand i) n hn
    have hlook := hs (rand i % n.toNat) hlt
    rw [← hr] at hlook
    have hcall : idealStore.call w.eng
        (MdbCall.cursor_get (fmt_key (Int.tmod (rand i) n)) MdbFlag.MDB_SET)
        = ({ rc := 0, val := fmt_value (Int.tmod (rand i) n), num := 0 }, w.eng) := by
      simp only [idealStore, hlook]
    rw [bench_mdb.access_loop]
    simp only [bench_mdb.mdb_assert, bind_apply, Prog.bind, engine_apply, hcall]
    rw [engine_assert_ok idealStore _ _ 0 _ rfl]
    simp only [memcmp_self, ne_eq, not_true_eq_false, or_self, if_false]
    obtain ⟨w1, h1, h2, h3, h4⟩ := ih (i + 1)
      { eng := w.eng,
        log := w.log ++ [(MdbCall.cursor_get (fmt_key (Int.tmod (rand i) n)) MdbFlag.MDB_SET,
          { rc := 0, val := fmt_value (Int.tmod (rand i) n), num := 0 })],
        out := w.out, dsize := w.dsize } hs
    refine ⟨w1, h1, h2, h3, ?_⟩
    rw [h4, gets_append_get, List.range_succ_eq_map, List.map_cons, List.map_map,
      List.append_assoc]
    simp only [Nat.add_zero, List.singleton_append, List.append_cancel_left_eq, List.cons.injEq,
      true_and]
    apply List.map_congr_left
    intro k _
    simp only [Function.comp, Nat.succ_eq_add_one]
    rw [Nat.add_assoc, Nat.add_comm 1 k]

theorem bench_mdb.mdb_randomaccess_ideal (rand : Nat → Nat) (n lookups : Int) (hn : 0 < n)
    (w : World MdbCall (List (Bytes × Bytes))) (hs : Stored n.toNat w.eng) :
    ∃ w1, bench_mdb.mdb_randomaccess idealStore rand n lookups w = (Outcome.returned (), w1) ∧
      w1.out = w.out ∧
      gets w1.log = gets w.log ++ (List.range lookups.toNat).map (fun k =>
        (fmt_key (Int.tmod (rand k) n), (0 : Int), fmt_value (Int.tmod (rand k) n))) := by
  unfold bench_mdb.mdb_randomaccess
  simp only [bench_mdb.mdb_assert]
  rw [ideal_checked _ _ _ _ _ (by intro _ _ _ h; cases h) (by intro _ _ h; cases h),
    ideal_checked _ _ _ _ _ (by intro _ _ _ h; cases h) (by intro _ _ h; cases h),
    ideal_checked _ _ _ _ _ (by intro _ _ _ h; cases h) (by intro _ _ h; cases h),
    ideal_checked _ _ _ _ _ (by intro _ _ _ h; cases h) (by intro _ _ h; cases h),
    ideal_checked _ _ _ _ _ (by intro _ _ _ h; cases h) (by intro _ _ h; cases h)]
  obtain ⟨w1, h1, h2, _, h4⟩ := bench_mdb.access_loop_ideal rand n hn lookups.toNat 0
    { eng := w.eng,
      log := w.log ++ [(MdbCall.env_create, Reply.ok)]
        ++ [(MdbCall.env_open "test.mdb" [MdbFlag.MDB_RDONLY, MdbFlag.MDB_NOSUBDIR] 436,
              Reply.ok)]
        ++ [(MdbCall.txn_begin [MdbFlag.MDB_RDONLY], Reply.ok)]
        ++ [(MdbCall.dbi_open [], Reply.ok)]
        ++ [(MdbCall.cursor_open, Reply.ok)],
      out := w.out, dsize := w.dsize } hs
  rw [bind_returned _ _ _ _ _ h1,
    ideal_unchecked _ _ _ (by intro _ _ _ h; cases h) (by intro _ _ h; cases h),
    ideal_unchecked _ _ _ (by intro _ _ _ h; cases h) (by intro _ _ h; cases h),
    ideal_unchecked _ _ _ (by intro _ _ _ h; cases h) (by intro _ _ h; cases h)]
  refine ⟨_, rfl, h2, ?_⟩
  simp only
  rw [gets_append_other _ _ _ (by intro _ _ h; cases h),
    gets_append_other _ _ _ (by intro _ _ h; cases h),
    gets_append_other _ _ _ (by intro _ _ h; cases h), h4]
  simp only
  rw [gets_append_other _ _ _ (by intro _ _ h; cases h),
    gets_append_other _ _ _ (by intro _ _ h; cases h),
    gets_append_other _ _ _ (by intro _ _ h; cases h),
    gets_append_other _ _ _ (by intro _ _ h; cases h),
    gets_append_other _ _ _ (by intro _ _ h; cases h)]
  simp only [Nat.zero_add]

/-- C1: with the engine an ideal key-value store in any state, for every
`n > 0`, every `lookups >= 1` and every sequence of `rand()` results (hence
every sequence of sampled indices `r = rand() % n`, which lie in `[0, n)`),
`mdb_create(n)` returns and `mdb_randomaccess(n, lookups)` run right after it
returns as well, prints nothing, and its `lookups` gets, in order, each succeed
on the key of the sampled index `r` with exactly the bytes of `"value_%d"` of
`r`: no lookup fails and no mismatch is reported. -/
theorem round_trip (n lookups : Int) (rand : Nat → Nat)
    (w : World MdbCall (List (Bytes × Bytes))) (hn : 0 < n) (hl : 1 ≤ lookups) :
    ∃ w1 w2,
      bench_mdb.mdb_create idealStore n w = (Outcome.returned (), w1) ∧
      bench_mdb.mdb_randomaccess idealStore rand n lookups w1 = (Outcome.returned (), w2) ∧
      w2.out = w.out ∧
      gets w2.log = gets w.log ++ (List.range lookups.toNat).map (fun k =>
        (fmt_key (Int.tmod (rand k) n), (0 : Int), fmt_value (Int.tmod (rand k) n))) ∧
      0 < (List.range lookups.toNat).length ∧
      ∀ k, 0 ≤ Int.tmod (rand k) n ∧ Int.tmod (rand k) n < n := by
  obtain ⟨w1, h1, h2, h3, h4⟩ := bench_mdb.mdb_create_ideal n w
  obtain ⟨w2, g1, g2, g3⟩ := bench_mdb.mdb_randomaccess_ideal rand n lookups hn w1 h4
  refine ⟨w1, w2, h1, g1, g2.trans h2, by rw [g3, h3], ?_, ?_⟩
  · rw [List.length_range]
    omega
  · intro k
    exact ⟨Int.tmod_nonneg n (Int.ofNat_nonneg _), Int.tmod_lt_of_pos _ hn⟩

/-- C1 on `n = 3`, two lookups with the `rand()` results 5 and 12 (sampled
indices 2 and 0), from the empty store. -/
theorem round_trip_witness :
    gets (bench_mdb.mdb_randomaccess idealStore (fun k => 7 * k + 5) 3 2
        (bench_mdb.mdb_create idealStore 3 (World.init [])).2).2.log
      = [(ascii "key_000000002", 0, ascii "value_2"),
         (ascii "key_000000000", 0, ascii "value_0")] ∧
    ∃ w1 w2,
      bench_mdb.mdb_create idealStore 3 (World.init []) = (Outcome.returned (), w1) ∧
      bench_mdb.mdb_randomaccess idealStore (fun k => 7 * k + 5) 3 2 w1
        = (Outcome.returned (), w2) ∧
      w2.out = (World.init ([] : List (Bytes × Bytes)) : World MdbCall _).out ∧
      gets w2.log = gets (World.init ([] : List (Bytes × Bytes)) : World MdbCall _).log
        ++ (List.range (2 : Int).toNat).map (fun k =>
          (fmt_key (Int.tmod ((fun k => 7 * k + 5) k : Nat) 3), (0 : Int),
            fmt_value (Int.tmod ((fun k => 7 * k + 5) k : Nat) 3))) ∧
      0 < (List.range (2 : Int).toNat).length ∧
      ∀ k, 0 ≤ Int.tmod ((fun k => 7 * k + 5) k : Nat) 3 ∧
        Int.tmod ((fun k => 7 * k + 5) k : Nat) 3 < 3 :=
  ⟨by decide, round_trip 3 2 (fun k => 7 * k + 5) (World.init []) (by decide) (by decide)⟩

/-! ### Mismatch diagnostics of the three lookup loops -/

theorem mismatch_test (expected val : Bytes) (h : val ≠ expected) :
    val.length ≠ expected.length ∨ memcmp expected val val.length ≠ 0 := by
  by_cases hl : val.length = expected.length
  · right
    have : ¬ List.take val.length expected = List.take val.length val := by
      rw [List.take_length, hl, List.take_length]
      exact fun c => h c.symm
    unfold memcmp
    rw [if_neg this]
    decide
  · exact Or.inl hl

/-- The lookup loop of bench_mdb.c at a lookup that succeeds with a value other
than the expected one: the run exits with code 1 right after this lookup, the
lookup being the last engine call, and the text printed names the key of the
sampled index. -/
theorem mdb_access_mismatch {σ : Type} (E : Engine MdbCall σ) (rand : Nat → Nat)
    (n : Int) (rem i : Nat) (w : World MdbCall σ)
    (hrc : (E.call w.eng (MdbCall.cursor_get (fmt_key (Int.tmod (rand i) n))
      MdbFlag.MDB_SET)).1.rc = E.success)
    (hval : (E.call w.eng (MdbCall.cursor_get (fmt_key (Int.tmod (rand i) n))
      MdbFlag.MDB_SET)).1.val ≠ fmt_value (Int.tmod (rand i) n)) :
    bench_mdb.access_loop E rand n (rem + 1) i w =
      (Outcome.exited 1,
        { eng := (E.call w.eng (MdbCall.cursor_get (fmt_key (Int.tmod (rand i) n))
            MdbFlag.MDB_SET)).2,
          log := w.log ++ [(MdbCall.cursor_get (fmt_key (Int.tmod (rand i) n)) MdbFlag.MDB_SET,
            (E.call w.eng (MdbCall.cursor_get (fmt_key (Int.tmod (rand i) n))
              MdbFlag.MDB_SET)).1)],
          out := w.out ++ (ascii "Did not get the expected value for key: "
            ++ fmt_key (Int.tmod (rand i) n) ++ ascii "\n"),
          dsize := w.dsize }) := by
  rw [bench_mdb.access_loop]
  simp only [bench_mdb.mdb_assert]
  rw [bind_returned _ _ _ _ _ (engine_apply E _ w),
    bind_returned _ _ _ _ _ (engine_assert_ok E _ _ _ _ hrc), if_pos (mismatch_test _ _ hval),
    bind_returned _ _ _ _ _ (printf_apply _ _)]
  rfl

/-- The lookup loop of bench_mdbi.c at a lookup that succeeds with a value
other than the expected one: the run exits with code 1 right after this lookup,
and the text printed is made of the content of the uninitialised buffer
`mykey`; the sampled index does not enter it. -/
theorem mdbi_access_mismatch {σ : Type} (E : Engine MdbCall σ) (rand : Nat → Nat)
    (mykey : Bytes) (n : Int) (rem i : Nat) (w : World MdbCall σ)
    (hrc : (E.call w.eng (MdbCall.cursor_get (int_key (Int.tmod (rand i) n))
      MdbFlag.MDB_SET)).1.rc = E.success)
    (hval : (E.call w.eng (MdbCall.cursor_get (int_key (Int.tmod (rand i) n))
      MdbFlag.MDB_SET)).1.val ≠ fmt_value (Int.tmod (rand i) n)) :
    bench_mdbi.access_loop E rand mykey n (rem + 1) i w =
      (Outcome.exited 1,
        { eng := (E.call w.eng (MdbCall.cursor_get (int_key (Int.tmod (rand i) n))
            MdbFlag.MDB_SET)).2,
          log := w.log ++ [(MdbCall.cursor_get (int_key (Int.tmod (rand i) n)) MdbFlag.MDB_SET,
            (E.call w.eng (MdbCall.cursor_get (int_key (Int.tmod (rand i) n))
              MdbFlag.MDB_SET)).1)],
          out := w.out ++ (ascii "Did not get the expected value for key: "
            ++ mykey ++ ascii "\n"),
          dsize := w.dsize }) := by
  rw [bench_mdbi.access_loop]
  simp only [bench_mdbi.mdb_assert]
  rw [bind_returned _ _ _ _ _ (engine_apply E _ w),
    bind_returned _ _ _ _ _ (engine_assert_ok E _ _ _ _ hrc), if_pos (mismatch_test _ _ hval),
    bind_returned _ _ _ _ _ (printf_apply _ _)]
  rfl

theorem engine_eq {κ σ : Type} (E : Engine κ σ) (c : κ) (w : World κ σ) (r : Reply) (s1 : σ)
    (h : E.call w.eng c = (r, s1)) :
    engine E c w = (Outcome.returned r,
      { eng := s1, log := w.log ++ [(c, r)], out := w.out, dsize := w.dsize }) := by
  rw [engine_apply, h]

/-- The lookup loop of benchi.c at a lookup that finds the key and fills a
value other than the expected one: the run exits with code 1 right after the
four engine calls of this lookup, and the text printed carries the sampled
index, which is the key, in decimal. -/
theorem benchi_access_mismatch {σ : Type} (E : Engine SpkCall σ) (ITER_ACTIVE : Nat)
    (rand : Nat → Nat) (n : Int) (rem i : Nat) (w : World SpkCall σ)
    (g st wanted fill : Reply) (s1 s2 s3 s4 : σ)
    (h1 : E.call w.eng (SpkCall.hash_get (int_key (Int.tmod (rand i) n))) = (g, s1))
    (h2 : E.call s1 SpkCall.logiter_state = (st, s2))
    (h3 : E.call s2 SpkCall.logiter_valuelen = (wanted, s3))
    (h4 : E.call s3 (SpkCall.logiter_fill_value wanted.num) = (fill, s4))
    (hg : g.rc = E.success) (hst : st.num = ITER_ACTIVE) (hf : fill.rc = E.success)
    (hval : fill.val ≠ fmt_value (Int.tmod (rand i) n)) :
    benchi.access_loop E ITER_ACTIVE rand n (rem + 1) i w =
      (Outcome.exited 1,
        { eng := s4,
          log := w.log ++ [(SpkCall.hash_get (int_key (Int.tmod (rand i) n)), g)]
            ++ [(SpkCall.logiter_state, st)] ++ [(SpkCall.logiter_valuelen, wanted)]
            ++ [(SpkCall.logiter_fill_value wanted.num, fill)],
          out := w.out ++ (ascii "Did not get the expected value for key: "
            ++ fmt_d (Int.tmod (rand i) n) ++ ascii "\n"),
          dsize := w.dsize }) := by
  rw [benchi.access_loop]
  simp only [benchi.sparkey_assert]
  rw [bind_returned _ _ _ _ _ (engine_eq E _ w g s1 h1),
    bind_returned _ _ _ _ _ (engine_assert_ok E _ _ _ _ hg),
    bind_returned _ _ _ _ _ (engine_eq E _ _ st s2 h2)]
  simp only [hst, ne_eq, not_true_eq_false, if_false]
  rw [bind_returned _ _ _ _ _ (engine_eq E _ _ wanted s3 h3),
    bind_returned _ _ _ _ _ (engine_eq E _ _ fill s4 h4),
    bind_returned _ _ _ _ _ (engine_assert_ok E _ _ _ _ hf), if_pos (mismatch_test _ _ hval),
    bind_returned _ _ _ _ _ (printf_apply _ _)]
  rfl

/-- A checked engine call that fails ends the run: the exit argument is the
return code and the failed call is the last entry of the log. -/
theorem checked_call_fatal {κ σ β : Type} (E : Engine κ σ) (c : κ) (file : Bytes) (line : Nat)
    (k : Prog κ σ β) (w : World κ σ) (h : (E.call w.eng c).1.rc ≠ E.success) :
    ∃ w1, (engine E c >>= fun r => engine_assert E file line r.rc >>= fun _ => k) w
        = (Outcome.exited (E.call w.eng c).1.rc, w1) ∧
      w1.log = w.log ++ [(c, (E.call w.eng c).1)] := by
  obtain ⟨w1, h1, _, h3⟩ := engine_assert_fail E file line (E.call w.eng c).1.rc
    { eng := (E.call w.eng c).2, log := w.log ++ [(c, (E.call w.eng c).1)],
      out := w.out, dsize := w.dsize } h
  refine ⟨w1, ?_, h3⟩
  rw [bind_returned _ _ _ _ _ (engine_apply E c w), bind_exited _ _ _ _ _ h1]

/-- C2: in bench_mdbi.c the mismatch diagnostic does not identify the key.
With `n = 3`, one lookup, an engine whose get (the sixth call) succeeds with the
bytes `"value_7"`, and an uninitialised buffer `mykey` that holds the empty
string, the run with sampled index 1 and the run with sampled index 2 both stop
at the lookup with exit code 1 and both print the same text,
`"Did not get the expected value for key: \n"`; bench_mdb.c on the same input
prints the key `key_000000001`. -/
theorem mdbi_diagnostic_ignores_key :
    (bench_mdbi.mdb_randomaccess
        (scripted (fun k => if k = 5 then { rc := 0, val := ascii "value_7", num := 0 }
          else Reply.ok))
        (fun _ => 1) [] 3 1 (World.init 0)).1 = Outcome.exited 1 ∧
    (bench_mdbi.mdb_randomaccess
        (scripted (fun k => if k = 5 then { rc := 0, val := ascii "value_7", num := 0 }
          else Reply.ok))
        (fun _ => 1) [] 3 1 (World.init 0)).2.out
      = ascii "Did not get the expected value for key: \n" ∧
    (bench_mdbi.mdb_randomaccess
        (scripted (fun k => if k = 5 then { rc := 0, val := ascii "value_7", num := 0 }
          else Reply.ok))
        (fun _ => 2) [] 3 1 (World.init 0)).2.out
      = ascii "Did not get the expected value for key: \n" ∧
    calls (bench_mdbi.mdb_randomaccess
        (scripted (fun k => if k = 5 then { rc := 0, val := ascii "value_7", num := 0 }
          else Reply.ok))
        (fun _ => 1) [] 3 1 (World.init 0)).2.log
      = [MdbCall.env_create,
         MdbCall.env_open "test.mdb" [MdbFlag.MDB_RDONLY, MdbFlag.MDB_NOSUBDIR] 436,
         MdbCall.txn_begin [MdbFlag.MDB_RDONLY], MdbCall.dbi_open [], MdbCall.cursor_open,
         MdbCall.cursor_get (int_key 1) MdbFlag.MDB_SET] ∧
    (bench_mdb.mdb_randomaccess
        (scripted (fun k => if k = 5 then { rc := 0, val := ascii "value_7", num := 0 }
          else Reply.ok))
        (fun _ => 1) 3 1 (World.init 0)).2.out
      = ascii "Did not get the expected value for key: key_000000001\n" := by
  decide

/-- C6: the commit of the last batch is not checked.  With `n = 1` and an
engine whose eighth call, the final `mdb_txn_commit`, returns the error
`MDB_MAP_FULL` (-30792), `mdb_create` does not exit: it goes on to call
`mdb_env_stat`, `mdb_env_info` and `mdb_env_close`, and returns.  The same
error on the seventh call, the `mdb_cursor_put`, ends the run at that call with
the code as exit argument. -/
theorem final_commit_unchecked :
    (bench_mdb.mdb_create
        (scripted (fun k => if k = 7 then { rc := -30792, val := [], num := 0 } else Reply.ok))
        1 (World.init 0)).1 = Outcome.returned () ∧
    (bench_mdb.mdb_create
        (scripted (fun k => if k = 7 then { rc := -30792, val := [], num := 0 } else Reply.ok))
        1 (World.init 0)).2.log.map (fun e => (e.1, e.2.rc))
      = [(MdbCall.env_create, 0), (MdbCall.env_set_mapsize 128, 0),
         (MdbCall.env_open "test.mdb"
            [MdbFlag.MDB_NOSYNC, MdbFlag.MDB_WRITEMAP, MdbFlag.MDB_NOSUBDIR] 436, 0),
         (MdbCall.txn_begin [], 0), (MdbCall.dbi_open [], 0), (MdbCall.cursor_open, 0),
         (MdbCall.cursor_put (ascii "key_000000000") (ascii "value_0") [MdbFlag.MDB_APPEND], 0),
         (MdbCall.txn_commit, -30792),
         (MdbCall.env_stat, 0), (MdbCall.env_info, 0), (MdbCall.env_close, 0)] ∧
    (bench_mdb.mdb_create
        (scripted (fun k => if k = 6 then { rc := -30792, val := [], num := 0 } else Reply.ok))
        1 (World.init 0)).1 = Outcome.exited (-30792) ∧
    calls (bench_mdb.mdb_create
        (scripted (fun k => if k = 6 then { rc := -30792, val := [], num := 0 } else Reply.ok))
        1 (World.init 0)).2.log
      = [MdbCall.env_create, MdbCall.env_set_mapsize 128,
         MdbCall.env_open "test.mdb"
            [MdbFlag.MDB_NOSYNC, MdbFlag.MDB_WRITEMAP, MdbFlag.MDB_NOSUBDIR] 436,
         MdbCall.txn_begin [], MdbCall.dbi_open [], MdbCall.cursor_open,
         MdbCall.cursor_put (ascii "key_000000000") (ascii "value_0") [MdbFlag.MDB_APPEND]] := by
  decide

/-! ## Properties of the file system helpers -/

theorem wfEntries_cons (a : String) (n : Node) (r : Dir) :
    wfEntries ((a, n) :: r) = true ↔
      a ≠ "." ∧ a ≠ ".." ∧ (∀ e ∈ r, e.1 ≠ a) ∧ wf n = true ∧ wfEntries r = true := by
  simp only [wfEntries, Bool.and_eq_true, bne_iff_ne, ne_eq, Bool.not_eq_true',
    List.any_eq_false, beq_iff_eq]
  constructor
  · rintro ⟨⟨⟨⟨h1, h2⟩, h3⟩, h4⟩, h5⟩
    exact ⟨h1, h2, h3, h4, h5⟩
  · rintro ⟨h1, h2, h3, h4, h5⟩
    exact ⟨⟨⟨⟨h1, h2⟩, h3⟩, h4⟩, h5⟩

theorem wf_dir (es : Dir) : wf (Node.dir es) = wfEntries es := by
  simp only [wf]

theorem lookup_cons (a b : String) (n : Node) (r : Dir) :
    List.lookup a ((b, n) :: r) = if a = b then some n else List.lookup a r := by
  by_cases h : a = b
  · subst h
    simp [List.lookup]
  · have : (a == b) = false := by simpa using h
    simp [List.lookup, this, h]

theorem mem_of_lookup (a : String) (es : Dir) (n : Node) (h : List.lookup a es = some n) :
    (a, n) ∈ es := by
  induction es with
  | nil => simp [List.lookup] at h
  | cons e r ih =>
    obtain ⟨b, m⟩ := e
    rw [lookup_cons] at h
    by_cases hab : a = b
    · rw [if_pos hab] at h
      cases h
      subst hab
      exact List.mem_cons_self _ _
    · rw [if_neg hab] at h
      exact List.mem_cons_of_mem _ (ih h)

theorem wf_of_mem (es : Dir) (hw : wfEntries es = true) (a : String) (n : Node)
    (h : (a, n) ∈ es) : wf n = true ∧ a ≠ "." ∧ a ≠ ".." := by
  induction es with
  | nil => cases h
  | cons e r ih =>
    obtain ⟨b, m⟩ := e
    obtain ⟨h1, h2, _, h4, h5⟩ := (wfEntries_cons b m r).mp hw
    rcases List.mem_cons.mp h with heq | hr
    · cases heq
      exact ⟨h4, h1, h2⟩
    · exact ih h5 hr

theorem height_of_mem (es : Dir) (a : String) (n : Node) (h : (a, n) ∈ es) :
    height n ≤ heightEntries es := by
  induction es with
  | nil => cases h
  | cons e r ih =>
    obtain ⟨b, m⟩ := e
    simp only [heightEntries]
    rcases List.mem_cons.mp h with heq | hr
    · cases heq
      exact Nat.le_max_left _ _
    · exact le_trans (ih hr) (Nat.le_max_right _ _)

theorem height_dir (es : Dir) : height (Node.dir es) = heightEntries es + 1 := by
  simp only [height]

theorem descend_append (p : Path) : ∀ (n : Node) (q : Path),
    descend n (p ++ q) = (descend n p).bind (fun m => descend m q) := by
  induction p with
  | nil => intro n q; cases n <;> simp [descend]
  | cons a p ih =>
    intro n q
    cases n with
    | reg s => simp [descend]
    | other => simp [descend]
    | dir es =>
      simp only [List.cons_append, descend]
      cases List.lookup a es with
      | none => rfl
      | some m => exact ih m q

theorem descend_wf (p : Path) : ∀ (n m : Node), descend n p = some m → wf n = true → wf m = true := by
  induction p with
  | nil =>
    intro n m h hw
    simp only [descend, Option.some.injEq] at h
    exact h ▸ hw
  | cons a p ih =>
    intro n m h hw
    cases n with
    | reg s => simp [descend] at h
    | other => simp [descend] at h
    | dir es =>
      simp only [descend] at h
      cases hl : List.lookup a es with
      | none => simp [hl] at h
      | some c =>
        rw [hl] at h
        exact ih c m h (wf_of_mem es (by rwa [wf_dir] at hw) a c (mem_of_lookup a es c hl)).1

theorem statAt_eq_descend (fs : Dir) (p : Path) (h : p ≠ []) : statAt fs p = descend (Node.dir fs) p := by
  cases p with
  | nil => exact absurd rfl h
  | cons a p => rfl

theorem statAt_ne_nil (fs : Dir) (p : Path) (n : Node) (h : statAt fs p = some n) : p ≠ [] := by
  intro c
  subst c
  simp [statAt] at h

/-- The node a path names determines the nodes just below it: in a directory
found at `p`, the path `p/a` names the entry called `a`. -/
theorem statAt_child (fs : Dir) (p : Path) (es : Dir) (a : String)
    (h : statAt fs p = some (Node.dir es)) : statAt fs (p ++ [a]) = List.lookup a es := by
  have hp := statAt_ne_nil fs p _ h
  rw [statAt_eq_descend fs p hp] at h
  rw [statAt_eq_descend fs (p ++ [a]) (by simp), descend_append, h]
  simp only [Option.bind, descend]
  cases List.lookup a es <;> rfl

theorem statAt_wf (fs : Dir) (p : Path) (n : Node) (h : statAt fs p = some n)
    (hw : wf (Node.dir fs) = true) : wf n = true := by
  rw [statAt_eq_descend fs p (statAt_ne_nil fs p n h)] at h
  exact descend_wf p _ n h hw

theorem statAt_none_of_lookup (fs : Dir) (a : String) (q : Path) (hq : q ≠ [])
    (h : ∀ sub, List.lookup a fs ≠ some (Node.dir sub)) : statAt fs (a :: q) = none := by
  simp only [statAt, descend]
  cases hl : List.lookup a fs with
  | none => rfl
  | some n =>
    cases n with
    | dir sub => exact absurd hl (h sub)
    | reg s =>
      cases q with
      | nil => exact absurd rfl hq
      | cons b q => rfl
    | other =>
      cases q with
      | nil => exact absurd rfl hq
      | cons b q => rfl

theorem heightEntries_le_iff (es : Dir) (bound : Nat) :
    heightEntries es ≤ bound ↔ ∀ a n, (a, n) ∈ es → height n ≤ bound := by
  induction es with
  | nil => simp [heightEntries]
  | cons e r ih =>
    obtain ⟨b, m⟩ := e
    simp only [heightEntries, Nat.max_le, ih, List.mem_cons, Prod.mk.injEq]
    constructor
    · rintro ⟨h1, h2⟩ a n hm
      rcases hm with ⟨_, rfl⟩ | hm
      · exact h1
      · exact h2 a n hm
    · intro h
      exact ⟨h b m (Or.inl ⟨rfl, rfl⟩), fun a n hm => h a n (Or.inr hm)⟩

theorem calls_append {κ : Type} (l1 l2 : List (κ × Reply)) :
    calls (l1 ++ l2) = calls l1 ++ calls l2 := by
  simp only [calls, List.map_append]

theorem Calls.seq {σ α β : Type} {m : Prog MdbCall σ α} {f : α → Prog MdbCall σ β}
    {L1 L2 : List MdbCall} (hm : Calls m L1) (hf : ∀ a, Calls (f a) L2) :
    Calls (m >>= f) (L1 ++ L2) := by
  intro w
  rcases hmw : m w with ⟨o, w1⟩
  cases o with
  | returned a =>
    have h1 := (hm w).1 a w1 hmw
    constructor
    · intro b w2 h
      rw [bind_returned m f w w1 a hmw] at h
      rw [(hf a w1).1 b w2 h, h1, List.append_assoc]
    · intro c w2 h
      rw [bind_returned m f w w1 a hmw] at h
      obtain ⟨L3, hp, he⟩ := (hf a w1).2 c w2 h
      refine ⟨L1 ++ L3, (List.prefix_append_right_inj L1).mpr hp, ?_⟩
      rw [he, h1, List.append_assoc]
  | exited c =>
    constructor
    · intro b w2 h
      rw [bind_exited m f w w1 c hmw] at h
      cases h
    · intro c2 w2 h
      rw [bind_exited m f w w1 c hmw] at h
      cases h
      obtain ⟨L3, hp, he⟩ := (hm w).2 c w1 hmw
      exact ⟨L3, hp.trans (List.prefix_append L1 L2), he⟩

theorem Calls.ret {σ α : Type} (a : α) : Calls (pure a : Prog MdbCall σ α) [] := by
  intro w
  constructor
  · intro b w1 h
    rw [pure_apply] at h
    cases h
    simp
  · intro c w1 h
    rw [pure_apply] at h
    cases h

theorem Calls.engine_call {σ : Type} (E : Engine MdbCall σ) (c : MdbCall) :
    Calls (engine E c) [c] := by
  intro w
  rw [engine_apply]
  constructor
  · intro b w1 h
    cases h
    simp [calls]
  · intro c w1 h
    cases h

theorem Calls.dsize {σ : Type} (v : Nat) : Calls (set_dsize v : Prog MdbCall σ Unit) [] := by
  intro w
  rw [set_dsize_apply]
  constructor
  · intro b w1 h
    cases h
    simp
  · intro c w1 h
    cases h

theorem Calls.tail {σ : Type} (E : Engine MdbCall σ) :
    Calls (engine E MdbCall.txn_commit >>= fun _ =>
      engine E MdbCall.env_stat >>= fun ms =>
      engine E MdbCall.env_info >>= fun info =>
      set_dsize (size_t (ms.num * info.num)) >>= fun _ =>
      engine E MdbCall.env_close >>= fun _ => (Pure.pure () : Prog MdbCall σ Unit))
    [MdbCall.txn_commit, MdbCall.env_stat, MdbCall.env_info, MdbCall.env_close] := by
  have h := Calls.seq (Calls.engine_call E MdbCall.txn_commit)
    (fun _ => Calls.seq (Calls.engine_call E MdbCall.env_stat)
      (fun ms => Calls.seq (Calls.engine_call E MdbCall.env_info)
        (fun info => Calls.seq (Calls.dsize (size_t (ms.num * info.num)))
          (fun _ => Calls.seq (Calls.engine_call E MdbCall.env_close)
            (fun _ => Calls.ret ())))))
  simpa using h

/-- C13, counterexample: in a run of `test()` in which every call returns, no
clock snapshot is taken immediately before the call of the candidate's
`randomaccess`.  The run takes three snapshots in all; the one before the call
is `t2`, and after it come the four lines of the populate report, in benchi.c
the call of `total_file_size`, and the line with the size, before `randomaccess`
is called; the lookup time printed, 2.5 seconds, is the distance from `t2` to
`t3`. -/
theorem lookup_start_not_adjacent :
    (((benchi.test sampleTrial sparkey_candidate_uncompressed 1000 1000000
          TestState.init).2.trace.drop 6).take 13 =
      [TestOp.wall Slot.t2, TestOp.cpu Slot.t2,
       TestOp.printf "    creation time (wall):     %d.%06d\n" [Arg.int 5, Arg.int 0],
       TestOp.printf "    creation time (ucpu):     %d.%06d\n" [Arg.int 2, Arg.int 0],
       TestOp.printf "    creation time (scpu):     %d.%06d\n" [Arg.int 0, Arg.int 500000],
       TestOp.printf "    throughput (puts/cpusec): %2.2f\n" [Arg.ratio 1000 2500000],
       TestOp.total_file_size [["test.spi"], ["test.spl"]],
       TestOp.printf "    file size:                %zu\n" [Arg.int 4096],
       TestOp.randomaccess 1000 1000000,
       TestOp.wall Slot.t3, TestOp.cpu Slot.t3,
       TestOp.printf "    lookup time (wall):          %d.%06d\n" [Arg.int 2, Arg.int 500000],
       TestOp.printf "    lookup time (ucpu):          %d.%06d\n" [Arg.int 1, Arg.int 0]]) ∧
    (benchi.test sampleTrial sparkey_candidate_uncompressed 1000 1000000
        TestState.init).2.trace.filter
        (fun op => decide (op = TestOp.wall Slot.t1 ∨ op = TestOp.wall Slot.t2 ∨
          op = TestOp.wall Slot.t3)) =
      [TestOp.wall Slot.t1, TestOp.wall Slot.t2, TestOp.wall Slot.t3] ∧
    (((bench_mdbi.test sampleTrial mdb_candidate_uncompressed 1000 1000000
          TestState.init).2.trace.drop 6).take 12 =
      [TestOp.wall Slot.t2, TestOp.cpu Slot.t2,
       TestOp.printf "    creation time (wall):     %d.%06d\n" [Arg.int 5, Arg.int 0],
       TestOp.printf "    creation time (ucpu):     %d.%06d\n" [Arg.int 2, Arg.int 0],
       TestOp.printf "    creation time (scpu):     %d.%06d\n" [Arg.int 0, Arg.int 500000],
       TestOp.printf "    throughput (puts/cpusec): %2.2f\n" [Arg.ratio 1000 2500000],
       TestOp.printf "    data size:                %zu\n" [Arg.int 4096],
       TestOp.randomaccess 1000 1000000,
       TestOp.wall Slot.t3, TestOp.cpu Slot.t3,
       TestOp.printf "    lookup time (wall):          %d.%06d\n" [Arg.int 2, Arg.int 500000],
       TestOp.printf "    lookup time (ucpu):          %d.%06d\n" [Arg.int 1, Arg.int 0]]) ∧
    (bench_mdbi.test sampleTrial mdb_candidate_uncompressed 1000 1000000
        TestState.init).2.trace.filter
        (fun op => decide (op = TestOp.wall Slot.t1 ∨ op = TestOp.wall Slot.t2 ∨
          op = TestOp.wall Slot.t3)) =
      [TestOp.wall Slot.t1, TestOp.wall Slot.t2, TestOp.wall Slot.t3] := by
  refine ⟨?_, ?_, ?_, ?_⟩ <;> decide

/-- C13, amended: in every run of `test()` in which `create`, `randomaccess`
and (in benchi.c) `total_file_size` return, the function returns after exactly
the operations listed, in this order.  The snapshot that starts the lookup
interval is `t2`, the second reading of both clocks, taken immediately after
`create` returns; it also ends the populate interval.  Between it and the call
of `randomaccess` the harness prints the four lines of the populate report,
measures the artifacts (benchi.c only) and prints the size.  The end snapshot
`t3`, the third reading, is taken immediately after `randomaccess` returns, and
the lookup times printed are the `timesub` differences of the second and third
readings. -/
theorem lookup_interval (T : Trial) (c : Candidate) (n lookups : Int)
    (hc : T.create n = Outcome.returned ())
    (hr : T.randomaccess n lookups = Outcome.returned ()) :
    (∀ size : Nat, T.total_file_size c.files = Outcome.returned size →
      benchi.test T c n lookups TestState.init =
        (Outcome.returned (),
          { trace :=
              [TestOp.printf "Testing bulk insert of %d elements and %d random lookups\n"
                 [Arg.int n, Arg.int lookups],
               TestOp.printf "  Candidate: %s\n" [Arg.str c.name],
               TestOp.rm_all_rec c.files,
               TestOp.wall Slot.t1, TestOp.cpu Slot.t1,
               TestOp.create n,
               TestOp.wall Slot.t2, TestOp.cpu Slot.t2,
               TestOp.printf "    creation time (wall):     %d.%06d\n"
                 [Arg.int (timesub (T.wall 0) (T.wall 1)).1.tv_sec,
                  Arg.int (timesub (T.wall 0) (T.wall 1)).1.tv_usec],
               TestOp.printf "    creation time (ucpu):     %d.%06d\n"
                 [Arg.int (timesub (T.cpu 0).1 (T.cpu 1).1).1.tv_sec,
                  Arg.int (timesub (T.cpu 0).1 (T.cpu 1).1).1.tv_usec],
               TestOp.printf "    creation time (scpu):     %d.%06d\n"
                 [Arg.int (timesub (T.cpu 0).2 (T.cpu 1).2).1.tv_sec,
                  Arg.int (timesub (T.cpu 0).2 (T.cpu 1).2).1.tv_usec],
               TestOp.printf "    throughput (puts/cpusec): %2.2f\n"
                 [Arg.ratio n (test_puts_denominator
                   ⟨T.wall 0, (T.cpu 0).1, (T.cpu 0).2⟩ ⟨T.wall 1, (T.cpu 1).1, (T.cpu 1).2⟩)],
               TestOp.total_file_size c.files,
               TestOp.printf "    file size:                %zu\n" [Arg.int size],
               TestOp.randomaccess n lookups,
               TestOp.wall Slot.t3, TestOp.cpu Slot.t3,
               TestOp.printf "    lookup time (wall):          %d.%06d\n"
                 [Arg.int (timesub (T.wall 1) (T.wall 2)).1.tv_sec,
                  Arg.int (timesub (T.wall 1) (T.wall 2)).1.tv_usec],
               TestOp.printf "    lookup time (ucpu):          %d.%06d\n"
                 [Arg.int (timesub (T.cpu 1).1 (T.cpu 2).1).1.tv_sec,
                  Arg.int (timesub (T.cpu 1).1 (T.cpu 2).1).1.tv_usec],
               TestOp.printf "    lookup time (scpu):          %d.%06d\n"
                 [Arg.int (timesub (T.cpu 1).2 (T.cpu 2).2).1.tv_sec,
                  Arg.int (timesub (T.cpu 1).2 (T.cpu 2).2).1.tv_usec],
               TestOp.printf "    throughput (lookups/cpusec): %2.2f\n"
                 [Arg.ratio lookups (test_lookups_denominator
                   ⟨T.wall 1, (T.cpu 1).1, (T.cpu 1).2⟩ ⟨T.wall 2, (T.cpu 2).1, (T.cpu 2).2⟩)],
               TestOp.rm_all_rec c.files,
               TestOp.printf "\n" []],
            walls := 3, cpus := 3 })) ∧
    bench_mdbi.test T c n lookups TestState.init =
      (Outcome.returned (),
        { trace :=
            [TestOp.printf "Testing bulk insert of %d elements and %d random lookups\n"
               [Arg.int n, Arg.int lookups],
             TestOp.printf "  Candidate: %s\n" [Arg.str c.name],
             TestOp.rm_all_rec c.files,
             TestOp.wall Slot.t1, TestOp.cpu Slot.t1,
             TestOp.create n,
             TestOp.wall Slot.t2, TestOp.cpu Slot.t2,
             TestOp.printf "    creation time (wall):     %d.%06d\n"
               [Arg.int (timesub (T.wall 0) (T.wall 1)).1.tv_sec,
                Arg.int (timesub (T.wall 0) (T.wall 1)).1.tv_usec],
             TestOp.printf "    creation time (ucpu):     %d.%06d\n"
               [Arg.int (timesub (T.cpu 0).1 (T.cpu 1).1).1.tv_sec,
                Arg.int (timesub (T.cpu 0).1 (T.cpu 1).1).1.tv_usec],
             TestOp.printf "    creation time (scpu):     %d.%06d\n"
               [Arg.int (timesub (T.cpu 0).2 (T.cpu 1).2).1.tv_sec,
                Arg.int (timesub (T.cpu 0).2 (T.cpu 1).2).1.tv_usec],
             TestOp.printf "    throughput (puts/cpusec): %2.2f\n"
               [Arg.ratio n (test_puts_denominator
                 ⟨T.wall 0, (T.cpu 0).1, (T.cpu 0).2⟩ ⟨T.wall 1, (T.cpu 1).1, (T.cpu 1).2⟩)],
             TestOp.printf "    data size:                %zu\n" [Arg.int T.dsize],
             TestOp.randomaccess n lookups,
             TestOp.wall Slot.t3, TestOp.cpu Slot.t3,
             TestOp.printf "    lookup time (wall):          %d.%06d\n"
               [Arg.int (timesub (T.wall 1) (T.wall 2)).1.tv_sec,
                Arg.int (timesub (T.wall 1) (T.wall 2)).1.tv_usec],
             TestOp.printf "    lookup time (ucpu):          %d.%06d\n"
               [Arg.int (timesub (T.cpu 1).1 (T.cpu 2).1).1.tv_sec,
                Arg.int (timesub (T.cpu 1).1 (T.cpu 2).1).1.tv_usec],
             TestOp.printf "    lookup time (scpu):          %d.%06d\n"
               [Arg.int (timesub (T.cpu 1).2 (T.cpu 2).2).1.tv_sec,
                Arg.int (timesub (T.cpu 1).2 (T.cpu 2).2).1.tv_usec],
             TestOp.printf "    throughput (lookups/cpusec): %2.2f\n"
               [Arg.ratio lookups (test_lookups_denominator
                 ⟨T.wall 1, (T.cpu 1).1, (T.cpu 1).2⟩ ⟨T.wall 2, (T.cpu 2).1, (T.cpu 2).2⟩)],
             TestOp.rm_all_rec c.files,
             TestOp.printf "\n" []],
          walls := 3, cpus := 3 }) := by
  constructor
  · intro size hs
    simp only [benchi.test, bind, Steps.bind, perform, wall, cpu, tprintf, hc, hs, hr,
      TestState.init, List.nil_append, List.append_assoc, List.cons_append, Nat.zero_add,
      Nat.reduceAdd, test_puts_denominator, test_lookups_denominator]
  · simp only [bench_mdbi.test, bind, Steps.bind, perform, wall, cpu, tprintf, hc, hr,
      TestState.init, List.nil_append, List.append_assoc, List.cons_append, Nat.zero_add,
      Nat.reduceAdd, test_puts_denominator, test_lookups_denominator]

/-- C13, amended, at a trial in which the clocks read 100, 105 and 107.5
seconds: the lookup time printed is 2.5 seconds, from the second reading to the
third. -/
theorem lookup_interval_witness :
    sampleTrial.create 1000 = Outcome.returned () ∧
    sampleTrial.randomaccess 1000 1000000 = Outcome.returned () ∧
    (timesub (sampleTrial.wall 1) (sampleTrial.wall 2)).1 = ⟨2, 500000⟩ ∧
    (benchi.test sampleTrial sparkey_candidate_uncompressed 1000 1000000
      TestState.init).2.trace.length = 23 ∧
    (bench_mdbi.test sampleTrial mdb_candidate_uncompressed 1000 1000000
      TestState.init).2.trace.length = 22 :=
  ⟨rfl, rfl, (by decide),
    (by rw [(lookup_interval sampleTrial sparkey_candidate_uncompressed 1000 1000000
      rfl rfl).1 4096 rfl]; rfl),
    (by rw [(lookup_interval sampleTrial mdb_candidate_uncompressed 1000 1000000
      rfl rfl).2]; rfl)⟩

/-! ## Running `rm_all_recAt` twice -/

/-- Induction over the nodes of the file system: a property that holds of the
regular files, of the entries of another type, and of a directory whenever it
holds of the nodes of its entries, holds of every node. -/
theorem node_induct (P : Node → Prop) (hreg : ∀ s, P (Node.reg s)) (hother : P Node.other)
    (hdir : ∀ es : Dir, (∀ a n, (a, n) ∈ es → P n) → P (Node.dir es)) : ∀ n, P n := by
  have main : ∀ (k : Nat) (n : Node), height n < k → P n := by
    intro k
    induction k with
    | zero => intro n h; omega
    | succ k ih =>
      intro n hn
      cases n with
      | reg s => exact hreg s
      | other => exact hother
      | dir es =>
        apply hdir
        intro a m hm
        apply ih
        have := height_of_mem es a m hm
        rw [height_dir] at hn
        omega
  intro n
  exact main (height n + 1) n (by omega)

theorem pruneEntries_cons_none (b : String) (m : Node) (r : Dir) (h : pruneNode m = none) :
    pruneEntries ((b, m) :: r) = pruneEntries r := by
  simp only [pruneEntries, h]

theorem pruneEntries_cons_some (b : String) (m m1 : Node) (r : Dir)
    (h : pruneNode m = some m1) :
    pruneEntries ((b, m) :: r) = (b, m1) :: pruneEntries r := by
  simp only [pruneEntries, h]

theorem mem_pruneEntries (es : Dir) (a : String) (n1 : Node) :
    (a, n1) ∈ pruneEntries es ↔ ∃ n, (a, n) ∈ es ∧ pruneNode n = some n1 := by
  induction es with
  | nil => simp [pruneEntries]
  | cons e r ih =>
    obtain ⟨b, m⟩ := e
    cases hm : pruneNode m with
    | none =>
      rw [pruneEntries_cons_none b m r hm, ih]
      constructor
      · rintro ⟨n, h1, h2⟩
        exact ⟨n, List.mem_cons_of_mem _ h1, h2⟩
      · rintro ⟨n, h1, h2⟩
        rcases List.mem_cons.mp h1 with h | h
        · cases h
          rw [hm] at h2
          cases h2
        · exact ⟨n, h, h2⟩
    | some m1 =>
      rw [pruneEntries_cons_some b m m1 r hm, List.mem_cons, ih]
      constructor
      · rintro (h | ⟨n, h1, h2⟩)
        · cases h
          exact ⟨m, List.mem_cons_self _ _, hm⟩
        · exact ⟨n, List.mem_cons_of_mem _ h1, h2⟩
      · rintro ⟨n, h1, h2⟩
        rcases List.mem_cons.mp h1 with h | h
        · cases h
          rw [hm] at h2
          cases h2
          exact Or.inl rfl
        · exact Or.inr ⟨n, h, h2⟩

/-- What is left of a directory is the directory with the entries left, when
there are any. -/
theorem pruneNode_dir (es : Dir) (n1 : Node) :
    pruneNode (Node.dir es) = some n1 ↔
      n1 = Node.dir (pruneEntries es) ∧ pruneEntries es ≠ [] := by
  simp only [pruneNode]
  cases h : pruneEntries es with
  | nil => simp
  | cons e t =>
    simp only [Option.some.injEq, ne_eq, reduceCtorEq, not_false_eq_true, and_true]
    exact eq_comm

theorem height_pruneNode : ∀ n : Node, ∀ n1, pruneNode n = some n1 → height n1 ≤ height n := by
  refine node_induct _ ?_ ?_ ?_
  · intro s n1 h
    simp [pruneNode] at h
  · intro n1 h
    simp only [pruneNode, Option.some.injEq] at h
    subst h
    exact le_refl _
  · intro es ih n1 h
    rw [pruneNode_dir] at h
    rw [h.1, height_dir, height_dir]
    apply Nat.add_le_add_right
    rw [heightEntries_le_iff]
    intro a m1 hm1
    obtain ⟨m, hm, hp⟩ := (mem_pruneEntries es a m1).mp hm1
    exact le_trans (ih a m hm m1 hp) (height_of_mem es a m hm)

theorem heightEntries_pruneEntries (es : Dir) :
    heightEntries (pruneEntries es) ≤ heightEntries es := by
  rw [heightEntries_le_iff]
  intro a m1 hm1
  obtain ⟨m, hm, hp⟩ := (mem_pruneEntries es a m1).mp hm1
  exact le_trans (height_pruneNode m m1 hp) (height_of_mem es a m hm)

theorem descend_of_not_dir (n : Node) (c : String) (rest : Path)
    (h : ∀ es, n ≠ Node.dir es) : descend n (c :: rest) = none := by
  cases n with
  | reg s => rfl
  | other => rfl
  | dir es => exact absurd rfl (h es)

/-- C10 as stated fails: right after `rm_all_rec` has removed the two Sparkey
artifacts, `total_file_size` on the same two paths does not return 0; the
`stat` of the first path fails and the run exits with argument -1. -/
theorem total_file_size_after_reset_exits :
    (rm_all_rec 2 [("test.spi", Node.reg 40), ("test.spl", Node.reg 2000)]
        [["test.spi"], ["test.spl"]]).map (fun fs => fs.map Prod.fst) = some [] ∧
    (rm_all_rec 2 [("test.spi", Node.reg 40), ("test.spl", Node.reg 2000)]
        [["test.spi"], ["test.spl"]]).bind
      (fun fs => total_file_size 2 fs [["test.spi"], ["test.spl"]])
      = some (Outcome.exited (-1)) ∧
    total_file_size 2 [] [["test.spi"], ["test.spl"]] ≠ some (Outcome.returned 0) := by
  decide

/-- C10, amended: for every non-empty list of declared paths none of which
exists in the file system, `total_file_size(paths)` does not return a size: the
`stat` of the first path fails and `errno_assert` ends the run with the exit
argument -1. -/
theorem total_file_size_absent (fuel : Nat) (fs : Dir) (files : List Path) (hfuel : 0 < fuel)
    (hne : files ≠ []) (habs : ∀ p ∈ files, stat fs p = none) :
    total_file_size fuel fs files = some (Outcome.exited (-1)) := by
  cases files with
  | nil => exact absurd rfl hne
  | cons p ps =>
    obtain ⟨k, rfl⟩ : ∃ k, fuel = k + 1 := ⟨fuel - 1, by omega⟩
    simp only [total_file_size, total_file_size_from, file_size_rec,
      habs p (List.mem_cons_self _ _)]

/-- C10, amended, on the two Sparkey artifacts in an empty directory. -/
theorem total_file_size_absent_witness :
    0 < 1 ∧ [["test.spi"], ["test.spl"]] ≠ ([] : List Path) ∧
    (∀ p ∈ [["test.spi"], ["test.spl"]], stat [] p = none) ∧
    total_file_size 1 [] [["test.spi"], ["test.spl"]] = some (Outcome.exited (-1)) :=
  ⟨by decide, by decide,
    by
      intro p hp
      simp only [List.mem_cons, List.mem_singleton, List.mem_nil_iff, or_false] at hp
      rcases hp with rfl | rfl <;> rfl,
    total_file_size_absent 1 [] [["test.spi"], ["test.spl"]] (by decide) (by decide)
      (by
        intro p hp
        simp only [List.mem_cons, List.mem_singleton, List.mem_nil_iff, or_false] at hp
        rcases hp with rfl | rfl <;> rfl)⟩

/-! ## What `rm_all_rec` leaves -/

end Sparkey
